import Mathlib

/-!
Verification of the productmd metadata library.

This file contains a shallow embedding, in Lean 4, of the parts of the
productmd Python library (release-engineering/productmd) that the checked
claims are about:

* the release-identifier codec (`productmd/common.py`:
  `create_release_id`, `parse_release_id`, the validation regexes),
* the compose-identifier date/type/respin decoder and the compose-type
  tables (`productmd/composeinfo.py`),
* `Location` / `FileEntry` values with their validators, equality and
  OCI-reference parsing (`productmd/location.py`),
* the versioned serialization engine for RPM manifests
  (`productmd/rpms.py`, `productmd/version.py`) and the serializers of
  the other manifest entities (`images.py`, `extra_files.py`,
  `modules.py`),
* the variant tree: `VariantBase.add` over an explicit object store
  (mirroring Python object identity and mutation), and the variant tree
  deserializer (`productmd/composeinfo.py`).

Python `None`-able strings/integers are modeled as `Option`; Python
exceptions are modeled with `Except`; Python dicts are modeled as
insertion-ordered association lists (matching CPython dict semantics).
Validation methods are executed in the same (alphabetically sorted)
order that `MetadataBase.validate` discovers them in.

Regular expressions used by the source are embedded as executable
character-list functions; anchored patterns are modeled as full-string
matchers.  (Python's `$` also matches just before one trailing newline;
identifier fields never contain newlines, and this quirk is not
modeled.)
-/

/-- Python exceptions raised by the modeled code paths: `TypeError`,
`ValueError`, `KeyError`, and unpack errors from tuple unpacking
(`ValueError: not enough values to unpack`). `legacyVersion` marks the
pre-1.0 decode paths, which are outside every claim's version set. -/
inductive PErr where
  | typeError
  | valueError
  | keyError
  | unpackError
  | legacyVersion
deriving DecidableEq, Repr

/-- ASCII lowercase letter test, `[a-z]` in the source regexes. -/
def isAsciiLower (c : Char) : Bool :=
  'a' ≤ c && c ≤ 'z'

/-- ASCII digit test, `[0-9]` / `\d` in the source regexes. -/
def isAsciiDigit (c : Char) : Bool :=
  '0' ≤ c && c ≤ '9'

/-- Lowercase hex digit test, `[a-f0-9]` in the source regexes. -/
def isHexLower (c : Char) : Bool :=
  isAsciiDigit c || ('a' ≤ c && c ≤ 'f')

/-- Python `str.startswith` (on whole strings, via character lists so
that it evaluates by kernel reduction). -/
def strStartsWith (s p : String) : Bool :=
  p.data.isPrefixOf s.data

/-- Python `str.lower()` for the ASCII identifiers this library
handles. -/
def strToLower (s : String) : String :=
  ⟨s.data.map (fun c => if 'A' ≤ c && c ≤ 'Z' then Char.ofNat (c.toNat + 32) else c)⟩

/-- Python `str.split(sep)` for a one-character separator, on character
lists.  `"".split(sep) == ['']`, and every separator occurrence opens a
new (possibly empty) chunk. -/
def splitOnChar (sep : Char) : List Char → List (List Char)
  | [] => [[]]
  | c :: rest =>
    let r := splitOnChar sep rest
    if c = sep then
      [] :: r
    else
      match r with
      | [] => [[c]]
      | h :: t => (c :: h) :: t

theorem splitOnChar_ne_nil (sep : Char) (l : List Char) : splitOnChar sep l ≠ [] := by
  cases l with
  | nil => simp [splitOnChar]
  | cons c rest =>
    simp only [splitOnChar]
    by_cases h : c = sep
    · simp [h]
    · simp only [h, if_false]
      cases splitOnChar sep rest <;> simp

theorem splitOnChar_no_sep (sep : Char) (l : List Char) (h : ∀ c ∈ l, c ≠ sep) :
    splitOnChar sep l = [l] := by
  induction l with
  | nil => rfl
  | cons c rest ih =>
    have hc : c ≠ sep := h c (List.mem_cons_self c rest)
    have hrest : splitOnChar sep rest = [rest] := ih (fun x hx => h x (List.mem_cons_of_mem c hx))
    simp [splitOnChar, hc, hrest]

theorem splitOnChar_append_sep (sep : Char) (a l : List Char) (ha : ∀ c ∈ a, c ≠ sep) :
    splitOnChar sep (a ++ sep :: l) = a :: splitOnChar sep l := by
  induction a with
  | nil => simp [splitOnChar]
  | cons c rest ih =>
    have hc : c ≠ sep := ha c (List.mem_cons_self c rest)
    have hrest := ih (fun x hx => ha x (List.mem_cons_of_mem c hx))
    simp only [List.cons_append, splitOnChar, hc, if_false]
    rw [show rest.append (sep :: l) = rest ++ sep :: l from rfl, hrest]

/-- Count of a character in a list; models Python `str.count` for a
one-character argument. -/
def countChar (sep : Char) (l : List Char) : Nat :=
  l.count sep

/-- Python `"sep".join(parts)` on character lists. -/
def joinWithChar (sep : Char) : List (List Char) → List Char
  | [] => []
  | [x] => x
  | x :: rest => x ++ sep :: joinWithChar sep rest

/-- Python `s.rsplit(sep, 2)` unpacked into exactly three values,
as in `short, version, release_type_extracted = release_id.rsplit("-", 2)`.
Returns `none` (an unpack `ValueError`) when `s` holds fewer than two
separators. -/
def rsplit2 (sep : Char) (l : List Char) : Option (List Char × List Char × List Char) :=
  match (splitOnChar sep l).reverse with
  | c :: b :: (x :: xs) => some (joinWithChar sep (x :: xs).reverse, b, c)
  | _ => none

/-! ## Release-identifier codec (`productmd/common.py`) -/

/-- `RELEASE_TYPES` from `productmd/common.py`, in source order (the
order matters: `_parse_release_id_part` takes the first suffix match). -/
def RELEASE_TYPES : List String :=
  ["fast", "ga", "updates", "updates-testing", "eus", "aus", "els", "tus", "e4s"]

/-- True when `l` has no two adjacent occurrences of `sep`. -/
def noDoubleChar (sep : Char) : List Char → Bool
  | [] => true
  | [_] => true
  | a :: b :: rest => !(a == sep && b == sep) && noDoubleChar sep (b :: rest)

/-- Full-string matcher for `^[a-z]+([a-z0-9]*-?[a-z0-9]+)*$`
(`RELEASE_SHORT_RE` and `RELEASE_TYPE_RE` in `productmd/common.py`).
The pattern matches exactly the nonempty strings over `[a-z0-9-]` that
begin with a lowercase letter, never contain `--` (each optional dash in
the starred group is followed by at least one alphanumeric), and do not
end with a dash. -/
def matchesDashWord (l : List Char) : Bool :=
  match l with
  | [] => false
  | c :: _ =>
    isAsciiLower c && l.all (fun x => isAsciiLower x || isAsciiDigit x || x == '-')
      && noDoubleChar '-' l && (l.getLastD '-' != '-')

/-- `is_valid_release_short` (`RELEASE_SHORT_RE.match(short)`). -/
def is_valid_release_short (s : String) : Bool :=
  matchesDashWord s.data

/-- `is_valid_release_type` (`RELEASE_TYPE_RE.match(release_type)`,
the same pattern as the short-name regex). -/
def is_valid_release_type (s : String) : Bool :=
  matchesDashWord s.data

/-- Matcher for the numeric alternative `[0-9]+(\.?[0-9]+)*` of
`RELEASE_VERSION_RE`: nonempty, over `[0-9.]`, starting and ending with
a digit, with no two adjacent dots (every dot is followed by a digit
run). -/
def numericDotted (l : List Char) : Bool :=
  match l with
  | [] => false
  | c :: _ =>
    isAsciiDigit c && l.all (fun x => isAsciiDigit x || x == '.')
      && noDoubleChar '.' l && (l.getLastD '.' != '.')

/-- `is_valid_release_version`: full-string matcher for
`RELEASE_VERSION_RE = ^([^0-9].*|([0-9]+(\.?[0-9]+)*))$` — either a
nonempty string whose first character is not a digit, or a dotted
numeric string. -/
def is_valid_release_version (s : String) : Bool :=
  match s.data with
  | [] => false
  | c :: _ => !isAsciiDigit c || numericDotted s.data

/-- One level of `create_release_id`: validate `(short, version, type)`
and emit `short-version` for the baseline "ga" type, else
`short-version-type`.  A `none` version or type models passing `None`,
which Python's `re.match` rejects with a `TypeError`. -/
def createReleaseIdPart (short : String) (version rtype : Option String) : Except PErr String := do
  if !is_valid_release_short short then throw PErr.valueError
  let v ← match version with
    | none => throw PErr.typeError
    | some v => pure v
  if !is_valid_release_version v then throw PErr.valueError
  let t ← match rtype with
    | none => throw PErr.typeError
    | some t => pure t
  if !is_valid_release_type t then throw PErr.valueError
  if t == "ga" then
    pure (short ++ "-" ++ v)
  else
    pure (short ++ "-" ++ v ++ "-" ++ t)

/-- `create_release_id(short, version, type, bp_short, bp_version, bp_type)`:
the base-product triple is appended as `@` plus its own recursively
encoded identifier when `bp_short` is truthy. -/
def create_release_id (short version rtype : String)
    (bpShort bpVersion bpType : Option String) : Except PErr String := do
  let base ← createReleaseIdPart short (some version) (some rtype)
  match bpShort with
  | none => pure base
  | some bs =>
    if bs.isEmpty then
      pure base
    else do
      let bpid ← createReleaseIdPart bs bpVersion bpType
      pure (base ++ "@" ++ bpid)

/-- `_parse_release_id_part` on character lists.  One dash means
`short-version` with type "ga"; otherwise the first known release type
that is a suffix is stripped, and the rest is `rsplit("-", 2)` into
short / version / extracted-type. -/
def parseReleaseIdPartCore (l : List Char) : Except PErr (List Char × List Char × List Char) :=
  if countChar '-' l == 1 then
    match splitOnChar '-' l with
    | [s, v] => .ok (s, v, "ga".data)
    | _ => .error PErr.unpackError
  else
    let rt? := RELEASE_TYPES.find? (fun t => t.data.isSuffixOf l)
    let l2 := match rt? with
      | some t => l.take (l.length - t.data.length)
      | none => l
    match rsplit2 '-' l2 with
    | none => .error PErr.unpackError
    | some (s, v, ext) =>
      let rt := match rt? with
        | some t => t.data
        | none => ext
      .ok (s, v, rt)

/-- Result of `parse_release_id`: the `bp_*` keys are present only for
the layered (`@`-separated) form. -/
structure ParsedReleaseId where
  short : String
  version : String
  rtype : String
  bpShort : Option String := none
  bpVersion : Option String := none
  bpType : Option String := none
deriving DecidableEq, Repr

/-- `parse_release_id`: split on `@` (exactly two parts when `@` occurs,
otherwise no base product), then `_parse_release_id_part` on each part. -/
def parse_release_id (rid : String) : Except PErr ParsedReleaseId := do
  if rid.data.contains '@' then
    match splitOnChar '@' rid.data with
    | [release, bp] => do
      let (s, v, t) ← parseReleaseIdPartCore release
      let (bs, bv, bt) ← parseReleaseIdPartCore bp
      pure { short := ⟨s⟩, version := ⟨v⟩, rtype := ⟨t⟩,
             bpShort := some ⟨bs⟩, bpVersion := some ⟨bv⟩, bpType := some ⟨bt⟩ }
    | _ => throw PErr.unpackError
  else do
    let (s, v, t) ← parseReleaseIdPartCore rid.data
    pure { short := ⟨s⟩, version := ⟨v⟩, rtype := ⟨t⟩ }

example : create_release_id "f" "23" "ga" none none none = .ok "f-23" := rfl
example : create_release_id "f" "23" "updates" none none none = .ok "f-23-updates" := rfl
example : parse_release_id "f-23-updates" =
    .ok { short := "f", version := "23", rtype := "updates" } := rfl
example : parse_release_id "f-23" =
    .ok { short := "f", version := "23", rtype := "ga" } := rfl
example : parse_release_id "sat-6.1-rhel-7-updates" =
    .ok { short := "sat-6.1-rhel", version := "7", rtype := "updates" } := rfl
/-! ## Compose identifiers (`productmd/composeinfo.py`) -/

/-- `COMPOSE_TYPES` from `productmd/composeinfo.py` (source order; the
order is the comparison rank used by `Compose.__cmp__`). -/
def COMPOSE_TYPES : List String :=
  ["test", "ci", "nightly", "production"]

/-- `Compose.type_suffix`: the per-compose-type code appended after the
date in a compose ID; raises `ValueError` for any other type. -/
def composeTypeSuffix (t : String) : Except PErr String :=
  if t == "production" then .ok ""
  else if t == "ci" then .ok ".ci"
  else if t == "nightly" then .ok ".n"
  else if t == "test" then .ok ".t"
  else .error PErr.valueError

/-- True when eight consecutive digits start at offset `p` of `l`. -/
def eightDigitsAt (l : List Char) (p : Nat) : Bool :=
  ((l.drop p).take 8).length == 8 && ((l.drop p).take 8).all isAsciiDigit

/-- Largest offset at which eight consecutive digits start, if any.
This is where the greedy leading `.*` of `get_date_type_respin`'s
pattern leaves the `(?P<date>\d{8})` group: everything after the date
group is optional or `.*`, so the match always succeeds at the
rightmost candidate and never backtracks further left. -/
def findLastEightDigits (l : List Char) : Option Nat :=
  (List.range (l.length + 1)).reverse.find? (fun p => eightDigitsAt l p)

/-- The five alternatives of the `(?P<type>...)` group of
`get_date_type_respin`'s pattern, in alternation order. -/
def DATE_TYPE_ALTERNATIVES : List (List Char) :=
  [".nightly".data, ".n".data, ".test".data, ".t".data, ".ci".data]

/-- The optional `(\.(?P<respin>\d+))?` group: a dot followed by a
maximal nonempty digit run. -/
def matchDotDigits : List Char → Option (List Char)
  | '.' :: rest =>
    let ds := rest.takeWhile isAsciiDigit
    if ds.isEmpty then none else some ds
  | _ => none

/-- Value of a digit run as a nonnegative integer (`int(...)`). -/
def digitsToInt (l : List Char) : Int :=
  Int.ofNat (l.foldl (fun n c => n * 10 + (c.toNat - '0'.toNat)) 0)

/-- `get_date_type_respin` (`productmd/composeinfo.py`): match
`.*(?P<date>\d{8})(?P<type>\.nightly|\.n|\.test|\.t|\.ci)?(\.(?P<respin>\d+))?.*`
against the compose ID.  `.ok none` models the `(None, None, None)`
return on no match; the final `ValueError` branch of the source (for an
unknown captured type) is kept, although the pattern can only capture
the five listed alternatives, so that branch cannot fire. -/
def get_date_type_respin (cid : String) : Except PErr (Option (String × String × Int)) :=
  match findLastEightDigits cid.data with
  | none => .ok none
  | some p =>
    let date : List Char := (cid.data.drop p).take 8
    let rest := cid.data.drop (p + 8)
    let typTok? := DATE_TYPE_ALTERNATIVES.find? (fun t => t.isPrefixOf rest)
    let rest2 := match typTok? with
      | some t => rest.drop t.length
      | none => rest
    let respin : Int := match matchDotDigits rest2 with
      | some ds => digitsToInt ds
      | none => 0
    match typTok? with
    | none => .ok (some (⟨date⟩, "production", respin))
    | some t =>
      if t = ".nightly".data || t = ".n".data then .ok (some (⟨date⟩, "nightly", respin))
      else if t = ".test".data || t = ".t".data then .ok (some (⟨date⟩, "test", respin))
      else if t = ".ci".data then .ok (some (⟨date⟩, "ci", respin))
      else .error PErr.valueError

example : get_date_type_respin "Foo-1.0-20170217.n.1" = .ok (some ("20170217", "nightly", 1)) := rfl
example : get_date_type_respin "Foo-1.0-20170217.ci" = .ok (some ("20170217", "ci", 0)) := rfl
example : get_date_type_respin "Foo-1.0-20170217.1" = .ok (some ("20170217", "production", 1)) := rfl
example : get_date_type_respin "Hello" = .ok none := rfl
/-! ## Locations (`productmd/location.py`) -/

/-- A file within an OCI image location (`FileEntry`). -/
structure FileEntry where
  file : Option String
  size : Option Int
  checksum : Option String
  layer_digest : Option String
deriving DecidableEq, Repr

/-- Artifact location with integrity information (`Location`). -/
structure Location where
  url : Option String
  size : Option Int
  checksum : Option String
  local_path : Option String
  contents : List FileEntry
deriving DecidableEq, Repr

/-- The alternatives of `CHECKSUM_RE`'s algorithm group, in source
order. -/
def CHECKSUM_ALGOS : List String :=
  ["sha256", "sha512", "sha1", "md5"]

/-- Full-string matcher for
`CHECKSUM_RE = ^(?P<algorithm>sha256|sha512|sha1|md5):(?P<digest>[a-f0-9]+)$`. -/
def matchesChecksumRe (s : String) : Bool :=
  CHECKSUM_ALGOS.any fun a =>
    strStartsWith s (a ++ ":") &&
      (let rest := s.drop (a.length + 1)
       !rest.isEmpty && rest.data.all isHexLower)

/-- `Location.is_oci`: falsy urls are not OCI; otherwise test the
`oci://` scheme prefix. -/
def locUrlIsOci (url : Option String) : Bool :=
  match url with
  | none => false
  | some u => !u.isEmpty && strStartsWith u "oci://"

/-- `Location.is_oci` as a property of the whole object. -/
def is_oci (loc : Location) : Bool :=
  locUrlIsOci loc.url

/-- The four named groups of `OCI_REFERENCE_RE`. -/
structure OciParts where
  registry : String
  repository : String
  tag : Option String
  digest : String
deriving DecidableEq, Repr

/-- Matcher for `OCI_REFERENCE_RE =
^oci://(?P<registry>[^/]+)/(?P<repository>[^:@]+)(:(?P<tag>[^@]+))?(@(?P<digest>sha256:[a-f0-9]{64}))$`.
The groups are deterministic: `registry` is the nonempty run before the
first `/` after the scheme (the class `[^/]+` cannot cross a slash);
neither `repository` nor `tag` may contain `@` and the digest group
starts with the only unconsumed `@`, so the split before the digest is
at the unique `@` of the remainder; `repository` (`[^:@]+`, nonempty)
stops at the first `:` of the body, and the optional `tag` (`[^@]+`,
nonempty) is everything from after that `:` to the `@`. -/
def ociMatch (u : String) : Option OciParts :=
  if !strStartsWith u "oci://" then none
  else
    match splitOnChar '/' (u.drop 6).data with
    | [] => none
    | [_] => none
    | reg :: r2parts =>
      if reg.isEmpty then none
      else
        match splitOnChar '@' (joinWithChar '/' r2parts) with
        | [body, d] =>
          if d.length == 71 && "sha256:".data.isPrefixOf d && (d.drop 7).all isHexLower then
            match splitOnChar ':' body with
            | [repo] =>
              if repo.isEmpty then none
              else some { registry := ⟨reg⟩, repository := ⟨repo⟩, tag := none, digest := ⟨d⟩ }
            | repo :: tagParts =>
              let tag := joinWithChar ':' tagParts
              if repo.isEmpty || tag.isEmpty then none
              else some { registry := ⟨reg⟩, repository := ⟨repo⟩, tag := some ⟨tag⟩, digest := ⟨d⟩ }
            | [] => none
          else none
        | _ => none

/-- `Location._parse_oci_url`: `None` unless `is_oci` holds and the URL
matches the full OCI reference format. -/
def parseOciUrl (loc : Location) : Option OciParts :=
  match loc.url with
  | none => none
  | some u => if locUrlIsOci (some u) then ociMatch u else none

/-- `Location.oci_registry`. -/
def oci_registry (loc : Location) : Option String :=
  (parseOciUrl loc).map (fun p => p.registry)

/-- `Location.oci_repository`. -/
def oci_repository (loc : Location) : Option String :=
  (parseOciUrl loc).map (fun p => p.repository)

/-- `Location.oci_tag`. -/
def oci_tag (loc : Location) : Option String :=
  (parseOciUrl loc).bind (fun p => p.tag)

/-- `Location.oci_digest`. -/
def oci_digest (loc : Location) : Option String :=
  (parseOciUrl loc).map (fun p => p.digest)

/-- `FileEntry._validate_checksum`. -/
def feValidateChecksum (fe : FileEntry) : Except PErr Unit := do
  match fe.checksum with
  | none => throw PErr.typeError
  | some c =>
    if c.isEmpty then throw PErr.valueError
    if !matchesChecksumRe c then throw PErr.valueError

/-- `FileEntry._validate_file`. -/
def feValidateFile (fe : FileEntry) : Except PErr Unit := do
  match fe.file with
  | none => throw PErr.typeError
  | some f =>
    if f.isEmpty then throw PErr.valueError
    if strStartsWith f "/" then throw PErr.valueError

/-- `FileEntry._validate_layer_digest`. -/
def feValidateLayerDigest (fe : FileEntry) : Except PErr Unit := do
  match fe.layer_digest with
  | none => throw PErr.typeError
  | some d =>
    if d.isEmpty then throw PErr.valueError
    if !strStartsWith d "sha256:" then throw PErr.valueError

/-- `FileEntry._validate_size`. -/
def feValidateSize (fe : FileEntry) : Except PErr Unit := do
  match fe.size with
  | none => throw PErr.typeError
  | some n => if n < 0 then throw PErr.valueError

/-- `FileEntry.validate`: run the `_validate_*` methods in sorted name
order (checksum, file, layer_digest, size). -/
def feValidate (fe : FileEntry) : Except PErr Unit := do
  feValidateChecksum fe
  feValidateFile fe
  feValidateLayerDigest fe
  feValidateSize fe

/-- `entry.validate()` over a contents list, in order. -/
def feValidateAll : List FileEntry → Except PErr Unit
  | [] => pure ()
  | fe :: rest => do
    feValidate fe
    feValidateAll rest

/-- `Location._validate_checksum` (`None` is allowed). -/
def locValidateChecksum (loc : Location) : Except PErr Unit := do
  match loc.checksum with
  | none => pure ()
  | some c =>
    if c.isEmpty then throw PErr.valueError
    if !matchesChecksumRe c then throw PErr.valueError

/-- `Location._validate_contents`: a non-empty contents list is only
allowed for OCI urls, and every entry must be a valid `FileEntry`.
(The `isinstance` checks hold by construction in this model.) -/
def locValidateContents (loc : Location) : Except PErr Unit :=
  (if !loc.contents.isEmpty && !is_oci loc then throw PErr.valueError else pure ()) >>= fun _ =>
    feValidateAll loc.contents

/-- `Location._validate_local_path`. -/
def locValidateLocalPath (loc : Location) : Except PErr Unit := do
  match loc.local_path with
  | none => throw PErr.typeError
  | some p =>
    if p.isEmpty then throw PErr.valueError
    if strStartsWith p "/" then throw PErr.valueError

/-- `Location._validate_size` (`None` is allowed). -/
def locValidateSize (loc : Location) : Except PErr Unit := do
  match loc.size with
  | none => pure ()
  | some n => if n < 0 then throw PErr.valueError

/-- `Location._validate_url`: a string, non-blank, not an absolute
path, and a full OCI reference whenever it has the `oci://` scheme. -/
def locValidateUrl (loc : Location) : Except PErr Unit := do
  match loc.url with
  | none => throw PErr.typeError
  | some u =>
    if u.isEmpty then throw PErr.valueError
    if strStartsWith u "/" then throw PErr.valueError
    if is_oci loc && (ociMatch u).isNone then throw PErr.valueError

/-- `Location.validate`: the `_validate_*` methods in sorted name order
(checksum, contents, local_path, size, url). -/
def locValidate (loc : Location) : Except PErr Unit := do
  locValidateChecksum loc
  locValidateContents loc
  locValidateLocalPath loc
  locValidateSize loc
  locValidateUrl loc

/-- `Location.__eq__`: `contents` is deliberately omitted from the
comparison. -/
def locEq (a b : Location) : Bool :=
  a.url == b.url && a.size == b.size && a.checksum == b.checksum && a.local_path == b.local_path

/-- The tuple `Location.__hash__` feeds to `hash(...)`; `contents` is
omitted.  Locations with equal tuples have equal Python hashes. -/
def locHashKey (l : Location) : Option String × Option Int × Option String × Option String :=
  (l.url, l.size, l.checksum, l.local_path)

/-- Serialized form of a `FileEntry` (`FileEntry.serialize`). -/
structure FileEntryDict where
  file : Option String
  size : Option Int
  checksum : Option String
  layer_digest : Option String
deriving DecidableEq, Repr

/-- `FileEntry.serialize`: validate, then emit the four fields. -/
def feSerialize (fe : FileEntry) : Except PErr FileEntryDict := do
  feValidate fe
  pure { file := fe.file, size := fe.size, checksum := fe.checksum, layer_digest := fe.layer_digest }

/-- `FileEntry.from_dict` / `FileEntry.deserialize`: `int(data["size"])`
raises a `TypeError` on `None`; then validate. -/
def feFromDict (d : FileEntryDict) : Except PErr FileEntry := do
  let n ← match d.size with
    | some n => pure n
    | none => throw PErr.typeError
  let fe : FileEntry :=
    { file := d.file, size := some n, checksum := d.checksum, layer_digest := d.layer_digest }
  feValidate fe
  pure fe

/-- Serialized form of a `Location` (`Location.serialize`). -/
structure LocationDict where
  url : Option String
  size : Option Int
  checksum : Option String
  local_path : Option String
  contents : List FileEntryDict
deriving DecidableEq, Repr

/-- Elementwise `Except` traversal (Python list comprehension in which
each element may raise). -/
def mapExcept (f : α → Except PErr β) : List α → Except PErr (List β)
  | [] => .ok []
  | a :: rest => do
    let b ← f a
    let r ← mapExcept f rest
    pure (b :: r)

/-- `Location.serialize`: validate, then emit the five fields with the
contents entries serialized in order. -/
def locSerialize (loc : Location) : Except PErr LocationDict := do
  locValidate loc
  let cs ← mapExcept feSerialize loc.contents
  pure { url := loc.url, size := loc.size, checksum := loc.checksum,
         local_path := loc.local_path, contents := cs }

/-- `Location.from_dict` / `Location.deserialize`: rebuild the fields
(`int(...)` on a present size is the identity here), rebuild contents
through `FileEntry.from_dict`, then validate. -/
def locFromDict (d : LocationDict) : Except PErr Location := do
  let cs ← mapExcept feFromDict d.contents
  let loc : Location :=
    { url := d.url, size := d.size, checksum := d.checksum,
      local_path := d.local_path, contents := cs }
  locValidate loc
  pure loc
/-! ### Basic `Except` plumbing and Location round-trip lemmas -/

theorem bindUnitOk {ε β : Type} (x : Except ε Unit) (y : Except ε β) (b : β)
    (h : (x >>= fun _ => y) = .ok b) : x = .ok () ∧ y = .ok b := by
  cases x with
  | error e => simp [Bind.bind, Except.bind] at h
  | ok u =>
    cases u
    exact ⟨rfl, by simpa [Bind.bind, Except.bind] using h⟩

theorem bindOkIff {ε α β : Type} (x : Except ε α) (f : α → Except ε β) (b : β) :
    (x >>= f) = .ok b ↔ ∃ a, x = .ok a ∧ f a = .ok b := by
  cases x <;> simp [Bind.bind, Except.bind]

theorem mapExcept_roundtrip {α β : Type} (f : α → Except PErr β) (g : β → Except PErr α)
    (hfg : ∀ a b, f a = .ok b → g b = .ok a) :
    ∀ (l : List α) (out : List β), mapExcept f l = .ok out → mapExcept g out = .ok l := by
  intro l
  induction l with
  | nil =>
    intro out h
    unfold mapExcept at h
    cases h
    rfl
  | cons a rest ih =>
    intro out h
    unfold mapExcept at h
    rw [bindOkIff] at h
    obtain ⟨b, hb, h⟩ := h
    rw [bindOkIff] at h
    obtain ⟨r, hr, h⟩ := h
    cases h
    unfold mapExcept
    rw [hfg a b hb, ih r hr]
    rfl

theorem feValidate_parts (fe : FileEntry) (h : feValidate fe = .ok ()) :
    feValidateChecksum fe = .ok () ∧ feValidateFile fe = .ok () ∧
    feValidateLayerDigest fe = .ok () ∧ feValidateSize fe = .ok () := by
  unfold feValidate at h
  obtain ⟨h1, h⟩ := bindUnitOk _ _ _ h
  obtain ⟨h2, h⟩ := bindUnitOk _ _ _ h
  obtain ⟨h3, h4⟩ := bindUnitOk _ _ _ h
  exact ⟨h1, h2, h3, h4⟩

theorem feValidateSize_some (fe : FileEntry) (h : feValidateSize fe = .ok ()) :
    ∃ n, fe.size = some n := by
  unfold feValidateSize at h
  cases hs : fe.size with
  | none => rw [hs] at h; simp [throw, throwThe, MonadExceptOf.throw] at h
  | some n => exact ⟨n, rfl⟩

theorem feSerialize_roundtrip (fe : FileEntry) (d : FileEntryDict)
    (h : feSerialize fe = .ok d) : feFromDict d = .ok fe := by
  unfold feSerialize at h
  obtain ⟨hv, hd⟩ := bindUnitOk _ _ _ h
  obtain ⟨n, hn⟩ := feValidateSize_some fe (feValidate_parts fe hv).2.2.2
  cases hd
  unfold feFromDict
  simp only [hn, bindOkIff]
  refine ⟨n, rfl, ?_⟩
  have hfe : ({ file := fe.file, size := some n, checksum := fe.checksum, layer_digest := fe.layer_digest } : FileEntry) = fe := by
    cases fe
    simp only at hn
    simp [hn]
  rw [hfe, hv]
  exact ⟨(), rfl, rfl⟩

theorem locValidate_parts (loc : Location) (h : locValidate loc = .ok ()) :
    locValidateChecksum loc = .ok () ∧ locValidateContents loc = .ok () ∧
    locValidateLocalPath loc = .ok () ∧ locValidateSize loc = .ok () ∧
    locValidateUrl loc = .ok () := by
  unfold locValidate at h
  obtain ⟨h1, h⟩ := bindUnitOk _ _ _ h
  obtain ⟨h2, h⟩ := bindUnitOk _ _ _ h
  obtain ⟨h3, h⟩ := bindUnitOk _ _ _ h
  obtain ⟨h4, h5⟩ := bindUnitOk _ _ _ h
  exact ⟨h1, h2, h3, h4, h5⟩

theorem locValidateLocalPath_some (loc : Location) (h : locValidateLocalPath loc = .ok ()) :
    ∃ p, loc.local_path = some p := by
  unfold locValidateLocalPath at h
  cases hs : loc.local_path with
  | none => rw [hs] at h; simp [throw, throwThe, MonadExceptOf.throw] at h
  | some p => exact ⟨p, rfl⟩

theorem locSerialize_roundtrip (loc : Location) (d : LocationDict)
    (h : locSerialize loc = .ok d) : locFromDict d = .ok loc := by
  unfold locSerialize at h
  obtain ⟨hv, h⟩ := bindUnitOk _ _ _ h
  rw [bindOkIff] at h
  obtain ⟨cs, hcs, hd⟩ := h
  cases hd
  unfold locFromDict
  simp only [bindOkIff]
  refine ⟨loc.contents, mapExcept_roundtrip feSerialize feFromDict feSerialize_roundtrip _ _ hcs, ?_⟩
  have hloc : ({ url := loc.url, size := loc.size, checksum := loc.checksum, local_path := loc.local_path, contents := loc.contents } : Location) = loc := by
    cases loc; rfl
  rw [hloc, hv]
  exact ⟨(), rfl, rfl⟩
/-! ## Version registry (`productmd/version.py`) -/

/-- A metadata format version `(major, minor)`. -/
abbrev Version := Nat × Nat

/-- Python tuple comparison `a <= b` for two-component versions. -/
def verLe (a b : Version) : Bool :=
  a.1 < b.1 || (a.1 == b.1 && a.2 ≤ b.2)

def VERSION_1_0 : Version := (1, 0)

def VERSION_1_1 : Version := (1, 1)

def VERSION_1_2 : Version := (1, 2)

def VERSION_2_0 : Version := (2, 0)

/-- `DEFAULT_VERSION`: the default version for writing new files. -/
def DEFAULT_VERSION : Version := VERSION_2_0

/-- `version_to_string`: `f"{version[0]}.{version[1]}"`. -/
def version_to_string (v : Version) : String :=
  toString v.1 ++ "." ++ toString v.2

/-- Value of a digit run as a natural number (`int(...)` on a `\d+`
match). -/
def digitsToNat (l : List Char) : Nat :=
  l.foldl (fun n c => n * 10 + (c.toNat - '0'.toNat)) 0

/-- `Header.version_tuple`: `_validate_version` checks the version
string against `^\d+\.\d+$`, then `split_version` converts both
dot-separated components with `int`. -/
def headerVersionTuple (s : String) : Except PErr Version :=
  match splitOnChar '.' s.data with
  | [a, b] =>
    if !a.isEmpty && a.all isAsciiDigit && !b.isEmpty && b.all isAsciiDigit then
      .ok (digitsToNat a, digitsToNat b)
    else .error PErr.valueError
  | _ => .error PErr.valueError

/-- The `header` section of a serialized manifest. -/
structure HeaderDict where
  htype : String
  hversion : String
deriving DecidableEq, Repr

/-- `Header.serialize`: writes the library's current version `"1.2"`
(`productmd.common.VERSION`) and the metadata type.  Every
`*.serialize` caller in the versioned entities immediately overwrites
the version field with the resolved output version. -/
def headerSerialize (metadataType : String) : HeaderDict :=
  { htype := metadataType, hversion := "1.2" }

/-- `Header.deserialize`: read and validate the version, and check the
declared metadata type against the expected tag once the format is new
enough (`>= (1, 1)`) to carry it. -/
def headerDeserialize (metadataType : String) (h : HeaderDict) : Except PErr Version :=
  headerVersionTuple h.hversion >>= fun vt =>
    (if verLe (1, 1) vt then
      (if h.htype != metadataType then throw PErr.valueError else pure ())
    else pure ()) >>= fun _ =>
    pure vt

/-- The `output_version` property of `VersionedMetadataMixin`
(`productmd/version.py`): the stamped `_output_version` when one was
set, otherwise `DEFAULT_VERSION`. -/
def outputVersionProperty (stamped : Option Version) : Version :=
  match stamped with
  | some v => v
  | none => DEFAULT_VERSION

/-- Modelled from the spec: `get_output_version` is called by every
serializer in the sources (`rpms.py`, `images.py`, `extra_files.py`,
`modules.py`) but its definition is missing from them; per the spec,
serialize "resolve[s] a target version (explicit override, else the
stamped `output_version`, else a fixed library default — v2.0)". The
explicit-override step is modeled here; its fallback is the
`output_version` property above, which is in the sources. -/
def get_output_version (force : Option Version) (stamped : Option Version) : Version :=
  match force with
  | some v => v
  | none => outputVersionProperty stamped

/-- Modelled from the spec: `OUTPUT_FORMAT_VERSION` is imported from
`productmd.version` by `images.py` but is missing from the sources; it
is the "fixed library default — v2.0" used when an `Image` is
serialized without a parent. -/
def OUTPUT_FORMAT_VERSION : Version := VERSION_2_0

/-! ## The `compose` payload section (`productmd/composeinfo.py`, class `Compose`) -/

/-- `LABEL_NAMES` from `productmd/composeinfo.py`. -/
def LABEL_NAMES : List String :=
  ["DevelPhaseExit", "InternalAlpha", "Alpha", "InternalSnapshot", "Beta", "Snapshot", "RC", "Update"]

/-- Matcher for `LABEL_RE_LIST`: some `^<name>-\d+\.\d+$` with
`name ∈ LABEL_NAMES` matches (the milestone label grammar). -/
def matchesLabelRe (s : String) : Bool :=
  LABEL_NAMES.any fun n =>
    strStartsWith s (n ++ "-") &&
      (match splitOnChar '.' (s.drop (n.length + 1)).data with
       | [a, b] => !a.isEmpty && a.all isAsciiDigit && !b.isEmpty && b.all isAsciiDigit
       | _ => false)

/-- Matcher for `Compose._validate_id`'s pattern
`.*\d{8}(\.nightly|\.n|\.ci|\.test|\.t)?(\.\d+)?` under `re.match`:
with the greedy leading `.*` and a fully optional unanchored tail, a
match exists exactly when the string contains eight consecutive
digits. -/
def hasEightConsecutiveDigits (l : List Char) : Bool :=
  (List.range (l.length + 1)).any (fun p => eightDigitsAt l p)

/-- In-memory state of a `Compose` section (fields default to `None` /
`False` in `Compose.__init__`). -/
structure ComposeData where
  id : Option String
  ctype : Option String
  date : Option String
  respin : Option Int
  label : Option String
  final : Bool
deriving DecidableEq, Repr

/-- Python truthiness of the `label` attribute (`if self.label:`). -/
def labelTruthy (label : Option String) : Bool :=
  match label with
  | some l => !l.isEmpty
  | none => false

/-- `Compose._validate_date`: a string matching `^\d{8}$`. -/
def composeValidateDate (c : ComposeData) : Except PErr Unit := do
  match c.date with
  | none => throw PErr.typeError
  | some d =>
    if !(d.length == 8 && d.data.all isAsciiDigit) then throw PErr.valueError

/-- `Compose._validate_final`: when a label is set, `final` must be a
bool (always true in this model, where `final : Bool`). -/
def composeValidateFinal (_c : ComposeData) : Except PErr Unit :=
  pure ()

/-- `Compose._validate_id`: a non-blank string containing a compose
date/type/respin suffix. -/
def composeValidateId (c : ComposeData) : Except PErr Unit := do
  match c.id with
  | none => throw PErr.typeError
  | some i => do
    if i.isEmpty then throw PErr.valueError
    if !hasEightConsecutiveDigits i.data then throw PErr.valueError

/-- `Compose._validate_label`: `None` or a milestone label
(`verify_label`). -/
def composeValidateLabel (c : ComposeData) : Except PErr Unit := do
  match c.label with
  | none => pure ()
  | some l => if !matchesLabelRe l then throw PErr.valueError

/-- `Compose._validate_respin`: must be an integer. -/
def composeValidateRespin (c : ComposeData) : Except PErr Unit := do
  match c.respin with
  | none => throw PErr.typeError
  | some _ => pure ()

/-- `Compose._validate_type`: `_assert_value` against `COMPOSE_TYPES`
(a `None` type is also not in the list and raises `ValueError`). -/
def composeValidateType (c : ComposeData) : Except PErr Unit := do
  match c.ctype with
  | none => throw PErr.valueError
  | some t => if !COMPOSE_TYPES.contains t then throw PErr.valueError

/-- `Compose.validate`: the `_validate_*` methods in sorted name order
(date, final, id, label, respin, type). -/
def composeValidate (c : ComposeData) : Except PErr Unit := do
  composeValidateDate c
  composeValidateFinal c
  composeValidateId c
  composeValidateLabel c
  composeValidateRespin c
  composeValidateType c

/-- The serialized `compose` section.  `label`/`final` keys are written
only when the label is truthy (`none` = key absent). -/
structure ComposeDict where
  id : Option String
  ctype : Option String
  date : Option String
  respin : Option Int
  label : Option String
  final : Option Bool
deriving DecidableEq, Repr

/-- `Compose.serialize`: validate, then write id/type/date/respin and,
when a label is set, label and final. -/
def composeSerialize (c : ComposeData) : Except PErr ComposeDict := do
  composeValidate c
  pure { id := c.id, ctype := c.ctype, date := c.date, respin := c.respin,
         label := if labelTruthy c.label then c.label else none,
         final := if labelTruthy c.label then some c.final else none }

/-- `Compose.deserialize_1_0` (the decode path for every format version
`>= (0, 3)`), followed by the `validate()` call in
`Compose.deserialize`: falsy labels are normalized to `None`
(`.get("label", None) or None`), a missing `final` key defaults to
`False`. -/
def composeDeserialize10 (d : ComposeDict) : Except PErr ComposeData := do
  let c : ComposeData :=
    { id := d.id,
      label := match d.label with
        | some l => if l.isEmpty then none else some l
        | none => none,
      ctype := d.ctype,
      date := d.date,
      respin := d.respin,
      final := match d.final with
        | some b => b
        | none => false }
  composeValidate c
  pure c

/-- The observable content of a `compose` section: all fields the wire
format can represent.  The `final` flag is representable only together
with a label — the encoder never writes `final` without a label and the
decoder then defaults it to `False` — so it is observed only when the
label is set. -/
def composeObs (c : ComposeData) :
    Option String × Option String × Option String × Option Int × Option String × Option Bool :=
  (c.id, c.ctype, c.date, c.respin, c.label,
   if labelTruthy c.label then some c.final else none)
theorem composeValidate_parts (c : ComposeData) (h : composeValidate c = .ok ()) :
    composeValidateDate c = .ok () ∧ composeValidateId c = .ok () ∧
    composeValidateLabel c = .ok () ∧ composeValidateRespin c = .ok () ∧
    composeValidateType c = .ok () := by
  unfold composeValidate at h
  obtain ⟨h1, h⟩ := bindUnitOk _ _ _ h
  obtain ⟨h2, h⟩ := bindUnitOk _ _ _ h
  obtain ⟨h3, h⟩ := bindUnitOk _ _ _ h
  obtain ⟨h4, h⟩ := bindUnitOk _ _ _ h
  obtain ⟨h5, h6⟩ := bindUnitOk _ _ _ h
  exact ⟨h1, h3, h4, h5, h6⟩

theorem composeValidate_final_irrelevant (i t dt : Option String) (r : Option Int)
    (lb : Option String) (f f' : Bool) :
    composeValidate { id := i, ctype := t, date := dt, respin := r, label := lb, final := f } =
      composeValidate { id := i, ctype := t, date := dt, respin := r, label := lb, final := f' } := rfl

theorem stringIsEmptyEqNil (s : String) (h : s.isEmpty = true) : s = "" := by
  cases s with
  | mk data =>
    cases data with
    | nil => rfl
    | cons a as =>
      simp only [String.isEmpty, beq_iff_eq] at h
      have h2 : ({ data := a :: as } : String).endPos.byteIdx = 0 := by
        rw [h]
        rfl
      simp only [String.endPos, String.utf8ByteSize, String.utf8ByteSize.go] at h2
      have h3 := Char.utf8Size_pos a
      omega

theorem matchesLabelRe_not_empty (l : String) (h : matchesLabelRe l = true) :
    l.isEmpty = false := by
  cases he : l.isEmpty with
  | false => rfl
  | true =>
    rw [stringIsEmptyEqNil l he] at h
    exact absurd h (by decide)

theorem composeValidateLabel_some (l : String) (c : ComposeData) (hcl : c.label = some l)
    (h : composeValidateLabel c = .ok ()) : matchesLabelRe l = true := by
  unfold composeValidateLabel at h
  rw [hcl] at h
  have h' : (if (!matchesLabelRe l) = true then (throw PErr.valueError : Except PErr Unit) else pure PUnit.unit) = .ok () := h
  cases m : matchesLabelRe l with
  | true => rfl
  | false =>
    rw [m] at h'
    simp [throw, throwThe, MonadExceptOf.throw] at h'

theorem composeSerialize_roundtrip (c : ComposeData) (d : ComposeDict)
    (h : composeSerialize c = .ok d) :
    ∃ c', composeDeserialize10 d = .ok c' ∧ composeObs c' = composeObs c := by
  unfold composeSerialize at h
  obtain ⟨hv, hd⟩ := bindUnitOk _ _ _ h
  cases hcl : c.label with
  | some l =>
    have hm := composeValidateLabel_some l c hcl (composeValidate_parts c hv).2.2.1
    have hne := matchesLabelRe_not_empty l hm
    have htr : labelTruthy c.label = true := by
      rw [hcl]
      simp [labelTruthy, hne]
    cases hd
    refine ⟨c, ?_, rfl⟩
    unfold composeDeserialize10
    simp only [hcl, labelTruthy, hne, Bool.not_false, eq_self_iff_true, if_true, Bool.false_eq_true, if_false]
    have hc : ({ id := c.id, label := some l, ctype := c.ctype, date := c.date, respin := c.respin, final := c.final } : ComposeData) = c := by
      cases c
      simp only at hcl
      simp [hcl]
    rw [hc, hv]
    rfl
  | none =>
    have htr : labelTruthy c.label = false := by
      rw [hcl]
      rfl
    cases hd
    refine ⟨{ id := c.id, ctype := c.ctype, date := c.date, respin := c.respin, label := none, final := false }, ?_, ?_⟩
    · unfold composeDeserialize10
      simp only [hcl, labelTruthy, Bool.false_eq_true, if_false]
      have hval : composeValidate { id := c.id, ctype := c.ctype, date := c.date, respin := c.respin, label := none, final := false } = .ok () := by
        rw [composeValidate_final_irrelevant c.id c.ctype c.date c.respin none false c.final]
        have hc : ({ id := c.id, ctype := c.ctype, date := c.date, respin := c.respin, label := none, final := c.final } : ComposeData) = c := by
          cases c
          simp only at hcl
          simp [hcl]
        rw [hc, hv]
      rw [hval]
      rfl
    · unfold composeObs
      simp [htr, hcl, labelTruthy]
/-! ## RPM manifests (`productmd/rpms.py`) -/

/-- One RPM entry of the in-memory `Rpms.rpms` mapping, in the shape
built by `Rpms.add` and by both deserializers: the `sigkey`, `path` and
`category` keys are always present, and `_location` (here `location`)
is optionally attached for v2.0 round-trip fidelity. -/
structure RpmEntry where
  sigkey : Option String
  path : String
  category : String
  location : Option Location
deriving DecidableEq, Repr

/-- The nested `variant → arch → srpm_nevra → rpm_nevra → value`
mapping, as an insertion-ordered association structure. -/
abbrev RpmNest (α : Type) := List (String × List (String × List (String × List (String × α))))

/-- One serialized v1.x RPM entry (`_serialize_v1`): sigkey, path and
category only. -/
structure RpmV1Entry where
  sigkey : Option String
  path : String
  category : String
deriving DecidableEq, Repr

/-- One serialized v2.0 RPM entry (`_serialize_v2`): a location object
plus sigkey and category. -/
structure RpmV2Entry where
  location : LocationDict
  sigkey : Option String
  category : String
deriving DecidableEq, Repr

/-- The `payload.rpms` section of a serialized file: v1.x and v2.0
layouts. -/
inductive RpmsPayloadDict where
  | v1 (rpms : RpmNest RpmV1Entry)
  | v2 (rpms : RpmNest RpmV2Entry)
deriving Repr

/-- A serialized rpms.json file: header, compose section, rpms
payload. -/
structure RpmsFile where
  header : HeaderDict
  compose : ComposeDict
  rpms : RpmsPayloadDict
deriving Repr

/-- In-memory `Rpms` entity: compose metadata, the nested rpms mapping,
and the stamped `_output_version`. -/
structure Rpms where
  compose : ComposeData
  rpms : RpmNest RpmEntry
  outputVersionStamp : Option Version
deriving Repr

/-- Map a function over the values of an association list, keeping
keys and order (a Python dict comprehension). -/
def mapPairs (f : α → β) (l : List (String × α)) : List (String × β) :=
  l.map (fun kv => (kv.1, f kv.2))

/-- `mapPairs` through an operation that may raise. -/
def mapPairsExcept (f : α → Except PErr β) : List (String × α) → Except PErr (List (String × β))
  | [] => .ok []
  | (k, a) :: rest => do
    let b ← f a
    let r ← mapPairsExcept f rest
    pure ((k, b) :: r)

/-- `mapPairs` over all four levels of an rpms mapping. -/
def rpmNestMap (f : α → β) (r : RpmNest α) : RpmNest β :=
  mapPairs (mapPairs (mapPairs (mapPairs f))) r

/-- `mapPairsExcept` over all four levels of an rpms mapping. -/
def rpmNestMapExcept (f : α → Except PErr β) (r : RpmNest α) : Except PErr (RpmNest β) :=
  mapPairsExcept (mapPairsExcept (mapPairsExcept (mapPairsExcept f))) r

/-- `_serialize_v1` per entry: strip the internal `_location` key and
output only the v1.x fields. -/
def rpmSerializeV1Entry (e : RpmEntry) : RpmV1Entry :=
  { sigkey := e.sigkey, path := e.path, category := e.category }

/-- `_deserialize_v1` stores the v1.x dicts directly; an entry read
from a v1.x payload has no `_location` key. -/
def rpmV1ToEntry (e : RpmV1Entry) : RpmEntry :=
  { sigkey := e.sigkey, path := e.path, category := e.category, location := none }

/-- The fallback of `_serialize_v2` for an entry without an explicit
Location: `Location(url=path, size=rpm_data.get("size"),
checksum=rpm_data.get("checksum"), local_path=path)`.  Entries built by
`add` and the deserializers carry no `size`/`checksum` keys, so both
`get` calls yield `None`. -/
def rpmSynthLocation (path : String) : Location :=
  { url := some path, size := none, checksum := none, local_path := some path, contents := [] }

/-- The location a v2.0 serialization uses for an entry: the explicit
`_location` when present, else the one synthesized from `path`. -/
def rpmEffectiveLocation (e : RpmEntry) : Location :=
  match e.location with
  | some loc => loc
  | none => rpmSynthLocation e.path

/-- `_serialize_v2` per entry: serialize the explicit or synthesized
location and carry over sigkey and category. -/
def rpmSerializeV2Entry (e : RpmEntry) : Except PErr RpmV2Entry := do
  let d ← locSerialize (rpmEffectiveLocation e)
  pure { location := d, sigkey := e.sigkey, category := e.category }

/-- `_deserialize_v2` per entry: rebuild the Location via
`Location.from_dict`, store the entry in the v1.x-compatible internal
shape with `path = location.local_path`, and keep the full location.
(`from_dict` validated `local_path` as a string, so the `none` branch
cannot be reached.) -/
def rpmDeserializeV2Entry (e : RpmV2Entry) : Except PErr RpmEntry := do
  let loc ← locFromDict e.location
  let p ← match loc.local_path with
    | some p => pure p
    | none => throw PErr.typeError
  pure { sigkey := e.sigkey, path := p, category := e.category, location := some loc }

/-- `Rpms.serialize(parser, force_version=None)`: resolve the output
version, write the header (then overwrite its version with the resolved
one), serialize the compose section, and dispatch to the v2.0 or v1.x
payload writer. -/
def rpms_serialize (x : Rpms) (forceVersion : Option Version) : Except PErr RpmsFile := do
  let ov := get_output_version forceVersion x.outputVersionStamp
  let header : HeaderDict := { headerSerialize "productmd.rpms" with hversion := version_to_string ov }
  let composeDict ← composeSerialize x.compose
  if verLe VERSION_2_0 ov then do
    let p ← rpmNestMapExcept rpmSerializeV2Entry x.rpms
    pure { header := header, compose := composeDict, rpms := RpmsPayloadDict.v2 p }
  else
    pure { header := header, compose := composeDict,
           rpms := RpmsPayloadDict.v1 (rpmNestMap rpmSerializeV1Entry x.rpms) }

/-- `Rpms.deserialize(data)`: read the header, dispatch on the file
version, validate (a no-op for `Rpms`, which defines no `_validate_*`
methods), and stamp `output_version` with the file's version.  The
pre-1.0 positional decoder `_deserialize_0_3` predates every version in
the claims (serialized headers are always `>= 1.0`) and is left as a
hard error; a payload whose layout does not match the dispatched branch
is a shape (`KeyError`) failure. -/
def rpms_deserialize (f : RpmsFile) : Except PErr Rpms := do
  let fileVersion ← headerDeserialize "productmd.rpms" f.header
  if verLe fileVersion (0, 3) then
    throw PErr.legacyVersion
  else if verLe VERSION_2_0 fileVersion then
    match f.rpms with
    | .v2 p => do
      let compose ← composeDeserialize10 f.compose
      let rpms ← rpmNestMapExcept rpmDeserializeV2Entry p
      pure { compose := compose, rpms := rpms, outputVersionStamp := some fileVersion }
    | .v1 _ => throw PErr.keyError
  else
    match f.rpms with
    | .v1 p => do
      let compose ← composeDeserialize10 f.compose
      pure { compose := compose,
             rpms := rpmNestMap rpmV1ToEntry p,
             outputVersionStamp := some fileVersion }
    | .v2 _ => throw PErr.keyError

/-- The v1.x-representable fields of an entry: sigkey, path, category. -/
def rpmObsV1 (e : RpmEntry) : Option String × String × String :=
  (e.sigkey, e.path, e.category)

/-- The v2.0-representable fields of an entry: sigkey, category, and
the effective location (the wire format carries the location object;
`path` is represented through `location.local_path`). -/
def rpmObsV2 (e : RpmEntry) : Option String × String × Location :=
  (e.sigkey, e.category, rpmEffectiveLocation e)

/-- The fields of an `Rpms` entity representable at format version `v`:
the compose section plus, per entry, the v1.x fields (below 2.0) or the
v2.0 fields (at 2.0 and above), keyed by the full
variant/arch/srpm/nevra structure. -/
def rpmsObs (v : Version) (x : Rpms) :
    (Option String × Option String × Option String × Option Int × Option String × Option Bool) ×
      Sum (RpmNest (Option String × String × String)) (RpmNest (Option String × String × Location)) :=
  (composeObs x.compose,
   if verLe VERSION_2_0 v then
     Sum.inr (rpmNestMap rpmObsV2 x.rpms)
   else
     Sum.inl (rpmNestMap rpmObsV1 x.rpms))

/-- `Except` success as a Bool. -/
def isOkB (x : Except PErr α) : Bool :=
  match x with
  | .ok _ => true
  | .error _ => false

/-- Validity of one entry: its effective location passes
`Location.validate` (this is what a v2.0 serialization checks; for an
entry without an explicit location it amounts to `path` being a
non-empty relative non-OCI path). -/
def rpmEntryValid (e : RpmEntry) : Bool :=
  isOkB (locValidate (rpmEffectiveLocation e))

/-- All entries of a nested rpms mapping satisfy `p`. -/
def rpmNestAll (p : α → Bool) (r : RpmNest α) : Bool :=
  r.all fun kv1 => kv1.2.all fun kv2 => kv2.2.all fun kv3 => kv3.2.all fun kv4 => p kv4.2

/-- A valid `Rpms` entity: valid compose section and valid entries. -/
def rpmsValid (x : Rpms) : Bool :=
  isOkB (composeValidate x.compose) && rpmNestAll rpmEntryValid x.rpms
/-! ### Round-trip lemmas for the RPM payload -/

theorem mapPairs_comp (f : α → β) (g : β → γ) (l : List (String × α)) :
    mapPairs g (mapPairs f l) = mapPairs (fun a => g (f a)) l := by
  simp [mapPairs, List.map_map, Function.comp]

theorem mapPairs_congr (f g : α → β) (h : ∀ a, f a = g a) (l : List (String × α)) :
    mapPairs f l = mapPairs g l := by
  induction l with
  | nil => rfl
  | cons kv rest ih => simp [mapPairs] at ih ⊢; exact ⟨h kv.2, ih⟩

theorem rpmNestMap_comp (f : α → β) (g : β → γ) (r : RpmNest α) :
    rpmNestMap g (rpmNestMap f r) = rpmNestMap (fun a => g (f a)) r := by
  unfold rpmNestMap
  rw [mapPairs_comp]
  refine mapPairs_congr _ _ (fun a => ?_) r
  rw [mapPairs_comp]
  refine mapPairs_congr _ _ (fun b => ?_) a
  rw [mapPairs_comp]
  refine mapPairs_congr _ _ (fun x => ?_) b
  rw [mapPairs_comp]

theorem mapPairsExcept_roundtrip_obs {α β γ ω : Type} (P : α → Bool)
    (f : α → Except PErr β) (g : β → Except PErr γ) (o1 : α → ω) (o2 : γ → ω)
    (hpt : ∀ a, P a = true → ∃ b, f a = .ok b ∧ ∃ c, g b = .ok c ∧ o2 c = o1 a) :
    ∀ l : List (String × α), (l.all fun kv => P kv.2) = true →
      ∃ out, mapPairsExcept f l = .ok out ∧
        ∃ res, mapPairsExcept g out = .ok res ∧ mapPairs o2 res = mapPairs o1 l := by
  intro l
  induction l with
  | nil =>
    intro _
    exact ⟨[], rfl, [], rfl, rfl⟩
  | cons kv rest ih =>
    intro hall
    rw [List.all_cons, Bool.and_eq_true] at hall
    obtain ⟨k, a⟩ := kv
    obtain ⟨b, hb, c, hc, ho⟩ := hpt a hall.1
    obtain ⟨out, hout, res, hres, hobs⟩ := ih hall.2
    refine ⟨(k, b) :: out, ?_, (k, c) :: res, ?_, ?_⟩
    · unfold mapPairsExcept
      rw [hb, hout]
      rfl
    · unfold mapPairsExcept
      rw [hc, hres]
      rfl
    · simp only [mapPairs, List.map_cons] at hobs ⊢
      rw [ho, hobs]

theorem feValidateAll_mapExcept_ok (l : List FileEntry) (h : feValidateAll l = .ok ()) :
    ∃ out, mapExcept feSerialize l = .ok out := by
  induction l with
  | nil => exact ⟨[], rfl⟩
  | cons fe rest ih =>
    unfold feValidateAll at h
    obtain ⟨h1, h2⟩ := bindUnitOk _ _ _ h
    obtain ⟨out, hout⟩ := ih h2
    have hfe : feSerialize fe = .ok { file := fe.file, size := fe.size, checksum := fe.checksum, layer_digest := fe.layer_digest } := by
      unfold feSerialize
      rw [h1]
      rfl
    refine ⟨{ file := fe.file, size := fe.size, checksum := fe.checksum, layer_digest := fe.layer_digest } :: out, ?_⟩
    unfold mapExcept
    rw [hfe]
    show Except.ok _ >>= _ = _
    simp only [Bind.bind, Except.bind]
    rw [hout]
    rfl

theorem locValidate_serialize_ok (loc : Location) (h : locValidate loc = .ok ()) :
    ∃ d, locSerialize loc = .ok d := by
  have hco : locValidateContents loc = .ok () := (locValidate_parts loc h).2.1
  unfold locValidateContents at hco
  obtain ⟨_, hall⟩ := bindUnitOk _ _ _ hco
  obtain ⟨cs, hcs⟩ := feValidateAll_mapExcept_ok loc.contents hall
  refine ⟨{ url := loc.url, size := loc.size, checksum := loc.checksum, local_path := loc.local_path, contents := cs }, ?_⟩
  unfold locSerialize
  rw [h]
  show Except.ok () >>= _ = _
  simp only [Bind.bind, Except.bind]
  rw [hcs]
  rfl

theorem rpmEntryV2_roundtrip (e : RpmEntry) (he : rpmEntryValid e = true) :
    ∃ d, rpmSerializeV2Entry e = .ok d ∧
      ∃ e', rpmDeserializeV2Entry d = .ok e' ∧ rpmObsV2 e' = rpmObsV2 e := by
  have hv : locValidate (rpmEffectiveLocation e) = .ok () := by
    unfold rpmEntryValid isOkB at he
    cases hres : locValidate (rpmEffectiveLocation e) with
    | ok u => cases u; rfl
    | error er => rw [hres] at he; simp at he
  obtain ⟨d, hd⟩ := locValidate_serialize_ok _ hv
  obtain ⟨p, hp⟩ := locValidateLocalPath_some _ (locValidate_parts _ hv).2.2.1
  refine ⟨{ location := d, sigkey := e.sigkey, category := e.category }, ?_, ?_⟩
  · unfold rpmSerializeV2Entry
    rw [hd]
    rfl
  · refine ⟨{ sigkey := e.sigkey, path := p, category := e.category, location := some (rpmEffectiveLocation e) }, ?_, ?_⟩
    · unfold rpmDeserializeV2Entry
      rw [locSerialize_roundtrip _ _ hd]
      show Except.ok _ >>= _ = _
      simp only [Bind.bind, Except.bind]
      rw [hp]
      rfl
    · unfold rpmObsV2 rpmEffectiveLocation
      rfl

theorem rpmNestMapExcept_roundtrip_obs {α β γ ω : Type} (P : α → Bool)
    (f : α → Except PErr β) (g : β → Except PErr γ) (o1 : α → ω) (o2 : γ → ω)
    (hpt : ∀ a, P a = true → ∃ b, f a = .ok b ∧ ∃ c, g b = .ok c ∧ o2 c = o1 a)
    (r : RpmNest α) (hall : rpmNestAll P r = true) :
    ∃ out, rpmNestMapExcept f r = .ok out ∧
      ∃ res, rpmNestMapExcept g out = .ok res ∧ rpmNestMap o2 res = rpmNestMap o1 r := by
  have l1 := mapPairsExcept_roundtrip_obs P f g o1 o2 hpt
  have l2 := mapPairsExcept_roundtrip_obs (fun x => x.all fun kv => P kv.2)
    (mapPairsExcept f) (mapPairsExcept g) (mapPairs o1) (mapPairs o2) l1
  have l3 := mapPairsExcept_roundtrip_obs
    (fun x => x.all fun kv => kv.2.all fun kv2 => P kv2.2)
    (mapPairsExcept (mapPairsExcept f)) (mapPairsExcept (mapPairsExcept g))
    (mapPairs (mapPairs o1)) (mapPairs (mapPairs o2)) l2
  have l4 := mapPairsExcept_roundtrip_obs
    (fun x => x.all fun kv => kv.2.all fun kv2 => kv2.2.all fun kv3 => P kv3.2)
    (mapPairsExcept (mapPairsExcept (mapPairsExcept f)))
    (mapPairsExcept (mapPairsExcept (mapPairsExcept g)))
    (mapPairs (mapPairs (mapPairs o1))) (mapPairs (mapPairs (mapPairs o2))) l3
  exact l4 r hall
theorem okBind {ε α β : Type} (a : α) (f : α → Except ε β) : (Except.ok a >>= f) = f a := rfl

theorem headerDeserialize_ok (m : String) (h : HeaderDict) (v : Version)
    (hp : headerVersionTuple h.hversion = .ok v) (ht : h.htype = m) :
    headerDeserialize m h = .ok v := by
  unfold headerDeserialize
  rw [hp, okBind, ht]
  have hne : (m != m) = false := by simp
  rw [hne]
  cases verLe (1, 1) v <;> rfl

theorem composeValidate_serialize_ok (c : ComposeData) (h : composeValidate c = .ok ()) :
    composeSerialize c = .ok { id := c.id, ctype := c.ctype, date := c.date, respin := c.respin, label := if labelTruthy c.label then c.label else none, final := if labelTruthy c.label then some c.final else none } := by
  unfold composeSerialize
  rw [h]
  rfl

theorem rpms_roundtrip_core (v : Version) (x : Rpms) (hx : rpmsValid x = true)
    (hparse : headerVersionTuple (version_to_string v) = .ok v)
    (hv03 : verLe v (0, 3) = false) :
    ∃ f y, rpms_serialize x (some v) = .ok f ∧ rpms_deserialize f = .ok y ∧
      rpmsObs v y = rpmsObs v x := by
  unfold rpmsValid at hx
  rw [Bool.and_eq_true] at hx
  have hcv : composeValidate x.compose = .ok () := by
    unfold isOkB at hx
    cases hres : composeValidate x.compose with
    | ok u => cases u; rfl
    | error er =>
      rw [hres] at hx
      exact absurd hx.1 (by simp)
  obtain ⟨cd, hcd⟩ : ∃ cd, composeSerialize x.compose = .ok cd :=
    ⟨_, composeValidate_serialize_ok x.compose hcv⟩
  obtain ⟨c', hds, hcobs⟩ := composeSerialize_roundtrip x.compose cd hcd
  cases hbr : verLe VERSION_2_0 v with
  | true =>
    obtain ⟨p, hp, res, hres, hobsn⟩ := rpmNestMapExcept_roundtrip_obs rpmEntryValid
      rpmSerializeV2Entry rpmDeserializeV2Entry rpmObsV2 rpmObsV2 rpmEntryV2_roundtrip
      x.rpms hx.2
    refine ⟨{ header := { htype := "productmd.rpms", hversion := version_to_string v }, compose := cd, rpms := RpmsPayloadDict.v2 p }, ⟨c', res, some v⟩, ?_, ?_, ?_⟩
    · unfold rpms_serialize
      show (composeSerialize x.compose >>= _) = _
      rw [hcd, okBind]
      show (if verLe VERSION_2_0 (get_output_version (some v) x.outputVersionStamp) = true then _ else _) = _
      have hov : get_output_version (some v) x.outputVersionStamp = v := rfl
      rw [hov, hbr, if_pos rfl]
      show (rpmNestMapExcept rpmSerializeV2Entry x.rpms >>= _) = _
      rw [hp, okBind]
      rfl
    · unfold rpms_deserialize
      rw [headerDeserialize_ok "productmd.rpms" _ v hparse rfl, okBind, hv03]
      show (if verLe VERSION_2_0 v = true then _ else _) = _
      rw [hbr, if_pos rfl]
      show (composeDeserialize10 _ >>= _) = _
      rw [hds, okBind]
      show (rpmNestMapExcept rpmDeserializeV2Entry p >>= _) = _
      rw [hres, okBind]
      rfl
    · unfold rpmsObs
      rw [hbr]
      simp only [if_true]
      rw [hcobs, hobsn]
  | false =>
    refine ⟨{ header := { htype := "productmd.rpms", hversion := version_to_string v }, compose := cd, rpms := RpmsPayloadDict.v1 (rpmNestMap rpmSerializeV1Entry x.rpms) }, ⟨c', rpmNestMap rpmV1ToEntry (rpmNestMap rpmSerializeV1Entry x.rpms), some v⟩, ?_, ?_, ?_⟩
    · unfold rpms_serialize
      show (composeSerialize x.compose >>= _) = _
      rw [hcd, okBind]
      show (if verLe VERSION_2_0 (get_output_version (some v) x.outputVersionStamp) = true then _ else _) = _
      have hov : get_output_version (some v) x.outputVersionStamp = v := rfl
      rw [hov, hbr]
      rfl
    · unfold rpms_deserialize
      rw [headerDeserialize_ok "productmd.rpms" _ v hparse rfl, okBind, hv03]
      show (if verLe VERSION_2_0 v = true then _ else _) = _
      rw [hbr]
      show (composeDeserialize10 _ >>= _) = _
      rw [hds, okBind]
      rfl
    · unfold rpmsObs
      rw [hbr]
      simp only [Bool.false_eq_true, if_false]
      rw [hcobs, rpmNestMap_comp, rpmNestMap_comp]
      rfl
/-! ## The variant tree: `VariantBase.add` over an explicit object store
(`productmd/composeinfo.py`)

Python variant objects alias each other (`parent` is a live reference,
and the candidate passed to `add` may be an ancestor of the target), so
`add` is modeled over an explicit store of nodes addressed by index;
index equality models Python object identity (`Variant` defines no
`__eq__`, so `in`/`!=` compare identities). -/

/-- `VARIANT_TYPES` from `productmd/composeinfo.py`. -/
def VARIANT_TYPES : List String :=
  ["variant", "optional", "addon", "layered-product"]

/-- The distinct `ValueError`s/`TypeError`s raised by `Variant.validate`
and `VariantBase.add`, one constructor per raise site. -/
inductive AddErr where
  | blankArches
  | badId
  | blankName
  | archNotInParent
  | badType
  | uidMismatch
  | childIdMismatch
  | cycleDetected
  | duplicateId
  | recursionError
deriving DecidableEq, Repr

/-- One heap object of the variant tree: either the top-level
`Variants` container (`isVariant = false`; its id/uid/name/type/arches
fields are unused) or a `Variant`.  `parent` and the children values
are references (indices) into the store. -/
structure VarNode where
  vid : String
  uid : String
  vname : String
  vtype : String
  arches : List String
  parent : Option Nat
  children : List (String × Nat)
  isVariant : Bool
deriving DecidableEq, Repr

abbrev VarStore := List VarNode

def emptyNode : VarNode :=
  { vid := "", uid := "", vname := "", vtype := "", arches := [],
    parent := none, children := [], isVariant := false }

def getNode (σ : VarStore) (i : Nat) : VarNode :=
  σ.getD i emptyNode

def setNode (σ : VarStore) (i : Nat) (n : VarNode) : VarStore :=
  σ.set i n

def isAsciiUpper (c : Char) : Bool :=
  'A' ≤ c && c ≤ 'Z'

def isAlnumAscii (c : Char) : Bool :=
  isAsciiLower c || isAsciiUpper c || isAsciiDigit c

/-- `Variant._validate_id`'s pattern `^[a-zA-Z0-9]+$`. -/
def variantIdOk (s : String) : Bool :=
  !s.isEmpty && s.data.all isAlnumAscii

/-- Python `uid.replace("-", "")`. -/
def stripDashes (s : String) : String :=
  ⟨s.data.filter (fun c => c != '-')⟩

/-- `Variant.validate` for the node at index `i`: the `_validate_*`
methods in sorted name order (arches, id, name, parent_arch, type, uid,
variants). -/
def variantValidate (σ : VarStore) (i : Nat) : Except AddErr Unit :=
  let n := getNode σ i
  (if n.arches.isEmpty then throw AddErr.blankArches else pure ()) >>= fun _ =>
  (if !variantIdOk n.vid then throw AddErr.badId else pure ()) >>= fun _ =>
  (if n.vname.isEmpty then throw AddErr.blankName else pure ()) >>= fun _ =>
  (match n.parent with
   | none => pure ()
   | some p =>
     if n.arches.all (fun a => (getNode σ p).arches.contains a) then pure ()
     else throw AddErr.archNotInParent) >>= fun _ =>
  (if !VARIANT_TYPES.contains n.vtype then throw AddErr.badType else pure ()) >>= fun _ =>
  (let expected := match n.parent with
     | none => n.vid
     | some p => (getNode σ p).uid ++ "-" ++ n.vid
   let selfUid := match n.parent with
     | none => stripDashes n.uid
     | some _ => n.uid
   if selfUid != expected then throw AddErr.uidMismatch else pure ()) >>= fun _ =>
  (if n.children.all (fun kv => (getNode σ kv.2).vid == kv.1) then pure ()
   else throw AddErr.childIdMismatch)

/-- `VariantBase._get_all_parents`: `[self]` plus, when a parent is
set, the parent's own chain.  The fuel bounds the recursion (Python
would hit the interpreter recursion limit on a cyclic chain). -/
def getAllParents (σ : VarStore) : Nat → Nat → Option (List Nat)
  | _, 0 => none
  | i, fuel+1 =>
    match (getNode σ i).parent with
    | none => some [i]
    | some p => (getAllParents σ p fuel).map (fun rest => i :: rest)

/-- `VariantBase.add(self, variant, variant_id=None)` (the claims pass
no explicit key, so the insertion key is `variant.id`).  Returns the
store after the call paired with the raised error, if any:

1. when the target has a `uid` attribute (i.e. is a `Variant`, not the
   `Variants` container), `variant.parent = self` is assigned first;
2. `variant.validate()`;
3. the cycle check over `self._get_all_parents()` (`in` compares object
   identities);
4. `self.variants.setdefault(variant_id, variant)`; an existing key
   bound to a different object (`!=` is identity) is a duplicate-id
   `ValueError`, and `setdefault` leaves the mapping unchanged in that
   case.

`addParentStep` is step 1 (`if hasattr(self, "uid"): variant.parent =
self` — only `Variant` targets, not the `Variants` container, reassign
the candidate's parent); `variantAdd` is the whole call. -/
def addParentStep (σ : VarStore) (selfIdx vIdx : Nat) : VarStore :=
  if (getNode σ selfIdx).isVariant then
    setNode σ vIdx { getNode σ vIdx with parent := some selfIdx }
  else σ

def variantAdd (σ : VarStore) (selfIdx vIdx : Nat) : VarStore × Option AddErr :=
  match variantValidate (addParentStep σ selfIdx vIdx) vIdx with
  | .error e => (addParentStep σ selfIdx vIdx, some e)
  | .ok _ =>
    match getAllParents (addParentStep σ selfIdx vIdx) selfIdx ((addParentStep σ selfIdx vIdx).length + 1) with
    | none => (addParentStep σ selfIdx vIdx, some AddErr.recursionError)
    | some parents =>
      if parents.contains vIdx then (addParentStep σ selfIdx vIdx, some AddErr.cycleDetected)
      else
        match (getNode (addParentStep σ selfIdx vIdx) selfIdx).children.find? (fun kv => kv.1 == (getNode (addParentStep σ selfIdx vIdx) vIdx).vid) with
        | some kv =>
          if kv.2 == vIdx then (addParentStep σ selfIdx vIdx, none)
          else (addParentStep σ selfIdx vIdx, some AddErr.duplicateId)
        | none =>
          (setNode (addParentStep σ selfIdx vIdx) selfIdx { getNode (addParentStep σ selfIdx vIdx) selfIdx with children := (getNode (addParentStep σ selfIdx vIdx) selfIdx).children ++ [((getNode (addParentStep σ selfIdx vIdx) vIdx).vid, vIdx)] }, none)

/-- The uid-composition invariant for one node: with a parent,
`uid = parent.uid + "-" + id`; parentless, `uid.replace("-","") = id`
(exactly `Variant._validate_uid`'s check). -/
def nodeUidOk (σ : VarStore) (n : VarNode) : Prop :=
  match n.parent with
  | some p => n.uid = (getNode σ p).uid ++ "-" ++ n.vid
  | none => stripDashes n.uid = n.vid

/-- The invariant over a store: every `Variant` node satisfies
`nodeUidOk`. -/
def storeUidOk (σ : VarStore) : Prop :=
  ∀ i, i < σ.length → (getNode σ i).isVariant = true → nodeUidOk σ (getNode σ i)
/-! ### Store access lemmas and preservation of the uid invariant by `add` -/

theorem getNode_set_eq (σ : VarStore) (i : Nat) (n : VarNode) (h : i < σ.length) :
    getNode (setNode σ i n) i = n := by
  simp [getNode, setNode, List.getD, List.getElem?_set_self, h]

theorem getNode_set_ne (σ : VarStore) (i j : Nat) (n : VarNode) (h : j ≠ i) :
    getNode (setNode σ i n) j = getNode σ j := by
  have h2 : i ≠ j := h.symm
  simp [getNode, setNode, List.getD, List.getElem?_set_ne h2]

theorem setNode_oob (σ : VarStore) (i : Nat) (n : VarNode) (h : σ.length ≤ i) :
    setNode σ i n = σ :=
  List.set_eq_of_length_le h

theorem setNode_length (σ : VarStore) (i : Nat) (n : VarNode) :
    (setNode σ i n).length = σ.length :=
  List.length_set σ i n

theorem variantValidate_uid (σ : VarStore) (i : Nat) (h : variantValidate σ i = .ok ()) :
    nodeUidOk σ (getNode σ i) := by
  unfold variantValidate at h
  obtain ⟨_, h⟩ := bindUnitOk _ _ _ h
  obtain ⟨_, h⟩ := bindUnitOk _ _ _ h
  obtain ⟨_, h⟩ := bindUnitOk _ _ _ h
  obtain ⟨_, h⟩ := bindUnitOk _ _ _ h
  obtain ⟨_, h⟩ := bindUnitOk _ _ _ h
  obtain ⟨huid, _⟩ := bindUnitOk _ _ _ h
  unfold nodeUidOk
  cases hp : (getNode σ i).parent with
  | none =>
    rw [hp] at huid
    have huid2 : (if (stripDashes (getNode σ i).uid != (getNode σ i).vid) = true then (throw AddErr.uidMismatch : Except AddErr Unit) else pure ()) = .ok () := huid
    by_cases he : stripDashes (getNode σ i).uid = (getNode σ i).vid
    · exact he
    · exfalso
      have hb : (stripDashes (getNode σ i).uid != (getNode σ i).vid) = true := by
        simp [bne_iff_ne, he]
      rw [hb] at huid2
      simp [throw, throwThe, MonadExceptOf.throw] at huid2
  | some p =>
    rw [hp] at huid
    have huid2 : (if ((getNode σ i).uid != (getNode σ p).uid ++ "-" ++ (getNode σ i).vid) = true then (throw AddErr.uidMismatch : Except AddErr Unit) else pure ()) = .ok () := huid
    by_cases he : (getNode σ i).uid = (getNode σ p).uid ++ "-" ++ (getNode σ i).vid
    · exact he
    · exfalso
      have hb : ((getNode σ i).uid != (getNode σ p).uid ++ "-" ++ (getNode σ i).vid) = true := by
        simp [bne_iff_ne, he]
      rw [hb] at huid2
      simp [throw, throwThe, MonadExceptOf.throw] at huid2
theorem addParentStep_getNode (σ : VarStore) (s v j : Nat) :
    (getNode (addParentStep σ s v) j).uid = (getNode σ j).uid ∧
    (getNode (addParentStep σ s v) j).vid = (getNode σ j).vid ∧
    (getNode (addParentStep σ s v) j).isVariant = (getNode σ j).isVariant ∧
    (getNode (addParentStep σ s v) j).children = (getNode σ j).children ∧
    (j ≠ v → getNode (addParentStep σ s v) j = getNode σ j) := by
  unfold addParentStep
  by_cases hv : (getNode σ s).isVariant = true
  · simp only [hv, if_true]
    by_cases hj : j = v
    · subst hj
      by_cases hlt : j < σ.length
      · rw [getNode_set_eq _ _ _ hlt]
        exact ⟨rfl, rfl, rfl, rfl, fun hne => absurd rfl hne⟩
      · rw [setNode_oob _ _ _ (Nat.le_of_not_lt hlt)]
        exact ⟨rfl, rfl, rfl, rfl, fun _ => rfl⟩
    · rw [getNode_set_ne _ _ _ _ hj]
      exact ⟨rfl, rfl, rfl, rfl, fun _ => rfl⟩
  · simp only [hv, if_false]
    exact ⟨rfl, rfl, rfl, rfl, fun _ => rfl⟩

theorem addParentStep_length (σ : VarStore) (s v : Nat) :
    (addParentStep σ s v).length = σ.length := by
  unfold addParentStep
  by_cases hv : (getNode σ s).isVariant = true
  · simp [hv, setNode_length]
  · simp [hv]

theorem setChildren_getNode (σ : VarStore) (s : Nat) (cs : List (String × Nat)) (j : Nat) :
    (getNode (setNode σ s { getNode σ s with children := cs }) j).uid = (getNode σ j).uid ∧
    (getNode (setNode σ s { getNode σ s with children := cs }) j).vid = (getNode σ j).vid ∧
    (getNode (setNode σ s { getNode σ s with children := cs }) j).isVariant = (getNode σ j).isVariant ∧
    (getNode (setNode σ s { getNode σ s with children := cs }) j).parent = (getNode σ j).parent := by
  by_cases hj : j = s
  · subst hj
    by_cases hlt : j < σ.length
    · rw [getNode_set_eq _ _ _ hlt]
      exact ⟨rfl, rfl, rfl, rfl⟩
    · rw [setNode_oob _ _ _ (Nat.le_of_not_lt hlt)]
      exact ⟨rfl, rfl, rfl, rfl⟩
  · rw [getNode_set_ne _ _ _ _ hj]
    exact ⟨rfl, rfl, rfl, rfl⟩

theorem nodeUidOk_transfer (σ σ2 : VarStore) (n n2 : VarNode)
    (huid : n2.uid = n.uid) (hvid : n2.vid = n.vid) (hpar : n2.parent = n.parent)
    (hρ : ∀ p, (getNode σ2 p).uid = (getNode σ p).uid)
    (h : nodeUidOk σ n) : nodeUidOk σ2 n2 := by
  unfold nodeUidOk at h ⊢
  rw [huid, hvid, hpar]
  cases hp : n.parent with
  | none =>
    rw [hp] at h
    exact h
  | some p =>
    rw [hp] at h
    show n.uid = (getNode σ2 p).uid ++ "-" ++ n.vid
    rw [hρ p]
    exact h
theorem variantAdd_preserves_uidOk (σ : VarStore) (s v : Nat) (σ' : VarStore)
    (hok : variantAdd σ s v = (σ', none)) (hinv : storeUidOk σ) : storeUidOk σ' := by
  unfold variantAdd at hok
  split at hok
  · exact absurd (congrArg Prod.snd hok) (by simp)
  · rename_i a heq
    cases a
    have hn1 := variantValidate_uid _ _ heq
    have hcore : ∀ τ : VarStore,
        (∀ j, (getNode τ j).uid = (getNode (addParentStep σ s v) j).uid ∧
              (getNode τ j).vid = (getNode (addParentStep σ s v) j).vid ∧
              (getNode τ j).isVariant = (getNode (addParentStep σ s v) j).isVariant ∧
              (getNode τ j).parent = (getNode (addParentStep σ s v) j).parent) →
        τ.length = σ.length → storeUidOk τ := by
      intro τ hfields hlen
      intro i hi hivar
      have hf := hfields i
      by_cases hiv : i = v
      · rw [hiv]
        exact nodeUidOk_transfer (addParentStep σ s v) τ _ _ (hfields v).1 (hfields v).2.1
          (hfields v).2.2.2 (fun p => (hfields p).1) hn1
      · have hA := addParentStep_getNode σ s v i
        have hAeq := hA.2.2.2.2 hiv
        have hSinv : (getNode σ i).isVariant = true := by
          rw [← hA.2.2.1, ← hf.2.2.1]
          exact hivar
        have hbase : nodeUidOk σ (getNode σ i) := by
          refine hinv i ?_ hSinv
          rw [← hlen]
          exact hi
        have hmid : nodeUidOk (addParentStep σ s v) (getNode (addParentStep σ s v) i) := by
          refine nodeUidOk_transfer σ (addParentStep σ s v) _ _ ?_ ?_ ?_ ?_ hbase
          · exact (addParentStep_getNode σ s v i).1
          · exact (addParentStep_getNode σ s v i).2.1
          · rw [hAeq]
          · intro p
            exact (addParentStep_getNode σ s v p).1
        exact nodeUidOk_transfer (addParentStep σ s v) τ _ _ hf.1 hf.2.1 hf.2.2.2
          (fun p => (hfields p).1) hmid
    split at hok
    · exact absurd (congrArg Prod.snd hok) (by simp)
    · split at hok
      · exact absurd (congrArg Prod.snd hok) (by simp)
      · split at hok
        · split at hok
          · have hσ' : σ' = addParentStep σ s v := (congrArg Prod.fst hok).symm
            rw [hσ']
            exact hcore _ (fun j => ⟨rfl, rfl, rfl, rfl⟩) (addParentStep_length σ s v)
          · exact absurd (congrArg Prod.snd hok) (by simp)
        · have hσ' : σ' = setNode (addParentStep σ s v) s { getNode (addParentStep σ s v) s with children := (getNode (addParentStep σ s v) s).children ++ [((getNode (addParentStep σ s v) v).vid, v)] } :=
            (congrArg Prod.fst hok).symm
          rw [hσ']
          refine hcore _ (fun j => ?_) ?_
          · have hS := setChildren_getNode (addParentStep σ s v) s
              ((getNode (addParentStep σ s v) s).children ++ [((getNode (addParentStep σ s v) v).vid, v)]) j
            exact ⟨hS.1, hS.2.1, hS.2.2.1, hS.2.2.2⟩
          · rw [setNode_length, addParentStep_length]
theorem addParentStep_parent_v (σ : VarStore) (s v : Nat) (hv : v < σ.length)
    (hs : (getNode σ s).isVariant = true) :
    (getNode (addParentStep σ s v) v).parent = some s := by
  unfold addParentStep
  rw [if_pos hs, getNode_set_eq _ _ _ hv]

theorem variantAdd_error_store (σ : VarStore) (s v : Nat) (σ' : VarStore) (e : AddErr)
    (herr : variantAdd σ s v = (σ', some e)) : σ' = addParentStep σ s v := by
  unfold variantAdd at herr
  split at herr
  · exact (congrArg Prod.fst herr).symm
  · split at herr
    · exact (congrArg Prod.fst herr).symm
    · split at herr
      · exact (congrArg Prod.fst herr).symm
      · split at herr
        · split at herr
          · exact absurd (congrArg Prod.snd herr) (by simp)
          · exact (congrArg Prod.fst herr).symm
        · exact absurd (congrArg Prod.snd herr) (by simp)

/-- If validation fails, `add` returns the store after the parent
reassignment together with the validation error. -/
theorem variantAdd_validate_error (σ : VarStore) (s v : Nat) (e : AddErr)
    (hval : variantValidate (addParentStep σ s v) v = .error e) :
    variantAdd σ s v = (addParentStep σ s v, some e) := by
  unfold variantAdd
  rw [hval]

/-- Along a parent chain, uid lengths are monotone: under the uid
invariant for the chain's nodes, every ancestor's uid is no longer than
the starting node's. -/
theorem parentChain_uid_le (σ : VarStore) :
    ∀ (fuel x : Nat) (parents : List Nat), getAllParents σ x fuel = some parents →
      (∀ j ∈ parents, nodeUidOk σ (getNode σ j)) →
      ∀ j ∈ parents, (getNode σ j).uid.length ≤ (getNode σ x).uid.length := by
  intro fuel
  induction fuel with
  | zero =>
    intro x parents h
    simp [getAllParents] at h
  | succ n ih =>
    intro x parents h halign j hj
    unfold getAllParents at h
    cases hp : (getNode σ x).parent with
    | none =>
      rw [hp] at h
      cases h
      rw [List.mem_singleton] at hj
      rw [hj]
    | some p =>
      rw [hp] at h
      have h2 : Option.map (fun rest => x :: rest) (getAllParents σ p n) = some parents := h
      cases hrest : getAllParents σ p n with
      | none =>
        rw [hrest] at h2
        exact Option.noConfusion h2
      | some rest =>
        rw [hrest] at h2
        have h3 : some (x :: rest) = some parents := h2
        cases Option.some.inj h3
        rw [List.mem_cons] at hj
        cases hj with
        | inl hx => rw [hx]
        | inr hr =>
          have hxa : nodeUidOk σ (getNode σ x) := halign x (List.mem_cons_self x rest)
          unfold nodeUidOk at hxa
          rw [hp] at hxa
          have hlen : (getNode σ p).uid.length < (getNode σ x).uid.length := by
            rw [show ((getNode σ x).uid = (getNode σ p).uid ++ "-" ++ (getNode σ x).vid) from hxa]
            rw [String.length_append, String.length_append]
            have : (("-" : String).length) = 1 := rfl
            omega
          have := ih p rest hrest (fun k hk => halign k (List.mem_cons_of_mem x hk)) j hr
          omega

/-- If the candidate already occurs in the target's ancestor chain (in
a uid-consistent store), validation of the candidate after the parent
reassignment cannot succeed: the uid-alignment check (or an earlier
validator) fails. -/
theorem cycle_add_validation_fails (σ : VarStore) (x y : Nat) (parents : List Nat)
    (hxv : (getNode σ x).isVariant = true) (hylt : y < σ.length)
    (hchain : getAllParents σ x (σ.length + 1) = some parents)
    (halign : ∀ j ∈ parents, nodeUidOk σ (getNode σ j))
    (hy : y ∈ parents) :
    ∃ e, variantValidate (addParentStep σ x y) y = .error e := by
  cases hval : variantValidate (addParentStep σ x y) y with
  | error e => exact ⟨e, rfl⟩
  | ok u =>
    exfalso
    cases u
    have huid := variantValidate_uid _ _ hval
    have hAy := addParentStep_getNode σ x y y
    have hAx := addParentStep_getNode σ x y x
    have huid2 : (getNode (addParentStep σ x y) y).uid = (getNode (addParentStep σ x y) x).uid ++ "-" ++ (getNode (addParentStep σ x y) y).vid := by
      unfold nodeUidOk at huid
      rw [addParentStep_parent_v σ x y hylt hxv] at huid
      exact huid
    rw [hAy.1, hAy.2.1, hAx.1] at huid2
    have hle := parentChain_uid_le σ (σ.length + 1) x parents hchain halign y hy
    have hlen2 : (getNode σ y).uid.length = (getNode σ x).uid.length + 1 + (getNode σ y).vid.length := by
      rw [huid2, String.length_append, String.length_append]
      have h1 : (("-" : String).length) = 1 := rfl
      omega
    omega
/-! ## The variant-tree deserializer
(`Variants.deserialize` / `Variant.deserialize`, `productmd/composeinfo.py`)

Deserialization never aliases existing nodes (every child is a freshly
constructed `Variant`), so it is modeled on plain trees.  The identity
comparisons inside `add` therefore become: the cycle check can never
fire (a fresh object is not its own ancestor), and `setdefault`'s
`new_variant != variant` is true whenever the key already exists. -/

/-- Errors raised by the deserializer: missing keys (`KeyError`), type
and value assertion failures, and exhausted recursion fuel (the model's
bound on nesting depth). -/
inductive DErr where
  | keyError
  | typeError
  | valueError
  | fuel
deriving DecidableEq, Repr

/-- The `release` sub-mapping of a layered-product variant dump.
Fields are `none` when the JSON value is `null`; `rtype` is `none` when
the key is absent (`.get("type", "ga")`). -/
structure RelDump where
  rname : Option String
  rversion : Option String
  rshort : Option String
  rtype : Option String
deriving DecidableEq, Repr

/-- `Release` validation as run at the end of `Release.deserialize`:
the `_validate_*` methods in sorted name order (internal, is_layered,
name, short, type, version); the two boolean checks always pass in this
model. -/
def releaseValidate (nm ver sh ty : Option String) : Except DErr Unit :=
  (match nm with
   | none => throw DErr.typeError
   | some _ => pure ()) >>= fun _ =>
  (match sh with
   | none => throw DErr.typeError
   | some _ => pure ()) >>= fun _ =>
  (match ty with
   | none => throw DErr.typeError
   | some t => if !RELEASE_TYPES.contains t then throw DErr.valueError else pure ()) >>= fun _ =>
  (match ver with
   | none => throw DErr.typeError
   | some v => if !is_valid_release_version v then throw DErr.valueError else pure ())

/-- `Release.deserialize_1_0` for the `release` section of a
layered-product variant dump (this code path is reached for every
composeinfo format version `> (0, 3)`): read name/version/short, read
type with default `"ga"` and lowercase it, then validate. -/
def releaseDeserialize10 (d : RelDump) : Except DErr Unit :=
  releaseValidate d.rname d.rversion d.rshort (some (strToLower (d.rtype.getD "ga")))

/-- Lexicographic (code-point) comparison of strings, Python `<` on
`str`. -/
def charListLt : List Char → List Char → Bool
  | [], [] => false
  | [], _ :: _ => true
  | _ :: _, [] => false
  | a :: as, b :: bs => if a < b then true else if b < a then false else charListLt as bs

/-- Stable insertion into a sorted list (helper for the stable ascending sort). -/
def insertStr (x : String) : List String → List String
  | [] => [x]
  | y :: ys => if charListLt x.data y.data then x :: y :: ys else y :: insertStr x ys

/-- Python `sorted(...)` over strings: stable ascending sort. -/
def sortedStrings (l : List String) : List String :=
  l.foldl (fun acc x => insertStr x acc) []

/-- The fixed path-field list of `VariantPaths.__init__`. -/
def VARIANT_PATH_FIELDS : List String :=
  ["os_tree", "packages", "repository", "isos", "jigdos",
   "source_tree", "source_packages", "source_repository", "source_isos", "source_jigdos",
   "debug_tree", "debug_packages", "debug_repository"]

/-- `VariantPaths.deserialize`: for each arch of the variant (in sorted
order) and each known path field, keep the value when present and
truthy (`if value:`).  `VariantPaths.validate()` defines no
`_validate_*` methods and always succeeds. -/
def pathsDeserialize (arches : List String)
    (paths : List (String × List (String × String))) : List (String × List (String × String)) :=
  VARIANT_PATH_FIELDS.map fun fieldName =>
    (fieldName,
     (sortedStrings arches).foldl (fun acc arch =>
       match (paths.lookup fieldName).bind (fun m => m.lookup arch) with
       | some v => if v.isEmpty then acc else acc ++ [(arch, v)]
       | none => acc) [])

/-- One variant dump of the flat `variants` section: the serialized
fields of a `Variant`.  `release` is present for layered products;
`variants` (the child-id list) is absent in legacy metadata. -/
structure VDump where
  vid : String
  uid : String
  vname : String
  vtype : String
  arches : List String
  paths : List (String × List (String × String))
  release : Option RelDump
  variants : Option (List String)
deriving DecidableEq, Repr

/-- A deserialized variant tree (fresh objects, no aliasing): the
decoded fields plus the children mapping in insertion order. -/
inductive VTree where
  | mk (vid uid vname vtype : String) (arches : List String)
      (paths : List (String × List (String × String)))
      (children : List (String × VTree))

def VTree.vid : VTree → String
  | .mk v _ _ _ _ _ _ => v

def VTree.uid : VTree → String
  | .mk _ u _ _ _ _ _ => u

def VTree.vname : VTree → String
  | .mk _ _ n _ _ _ _ => n

def VTree.vtype : VTree → String
  | .mk _ _ _ t _ _ _ => t

def VTree.arches : VTree → List String
  | .mk _ _ _ _ a _ _ => a

def VTree.children : VTree → List (String × VTree)
  | .mk _ _ _ _ _ _ cs => cs

/-- `Variant.validate` for a decoded tree node, with the parent's uid
and arches passed explicitly (`none` = no parent): the same sorted
validator list as `variantValidate` over the store. -/
def treeValidate (parentUid : Option String) (parentArches : Option (List String))
    (t : VTree) : Except DErr Unit :=
  (if t.arches.isEmpty then throw DErr.valueError else pure ()) >>= fun _ =>
  (if !variantIdOk t.vid then throw DErr.valueError else pure ()) >>= fun _ =>
  (if t.vname.isEmpty then throw DErr.valueError else pure ()) >>= fun _ =>
  (match parentArches with
   | none => pure ()
   | some pa =>
     if t.arches.all (fun a => pa.contains a) then pure () else throw DErr.valueError) >>= fun _ =>
  (if !VARIANT_TYPES.contains t.vtype then throw DErr.valueError else pure ()) >>= fun _ =>
  (match parentUid with
   | none => if stripDashes t.uid != t.vid then throw DErr.valueError else pure ()
   | some pu => if t.uid != pu ++ "-" ++ t.vid then throw DErr.valueError else pure ()) >>= fun _ =>
  (if t.children.all (fun kv => kv.2.vid == kv.1) then pure () else throw DErr.valueError)

/-- The child-`add` loop shared by `Variant.deserialize` and
`Variants.deserialize`: decode each key with `f`, validate the decoded
child against the parent fields (`variant.validate()` inside `add`;
at the container top level the parent fields are `none` since the
`Variants` container has no `uid` attribute and `add` does not reassign
the parent), skip the cycle check (a freshly constructed object is
never an ancestor), and insert keyed by the child's id — an existing
key is always bound to a distinct object and raises the duplicate
`ValueError`. -/
def childLoop (f : String → Except DErr VTree) (pu : Option String)
    (pa : Option (List String)) (acc : List (String × VTree)) :
    List String → Except DErr (List (String × VTree))
  | [] => .ok acc
  | cuid :: rest =>
    f cuid >>= fun child =>
    treeValidate pu pa child >>= fun _ =>
    (if acc.any (fun kv => kv.1 == child.vid) then .error DErr.valueError else pure ()) >>= fun _ =>
    childLoop f pu pa (acc ++ [(child.vid, child)]) rest

/-- `Variant.deserialize(full_data, variant_uid)` for the node stored
under key `uidKey`, constructed with its parent's uid/arches (`none` at
top level): look the dump up (`KeyError` when missing), decode the
`release` section for layered products, decode paths, determine the
child keys (from the sorted `variants` id list prefixed with the dump's
own uid, or, for legacy metadata, every key of the flat data starting
with `variant_uid + "-"`), recursively decode and `add` each child, and
finally validate the node.  The fuel bounds the nesting depth. -/
def deserializeVariant : Nat → List (String × VDump) → String →
    Option String → Option (List String) → Except DErr VTree
  | 0, _, _, _, _ => .error DErr.fuel
  | fuel + 1, full, uidKey, parentUid, parentArches =>
    (match full.lookup uidKey with
     | some d => Except.ok d
     | none => .error DErr.keyError) >>= fun dump =>
    (if dump.vtype == "layered-product" then
      match dump.release with
      | some r => releaseDeserialize10 r
      | none => .error DErr.keyError
    else pure ()) >>= fun _ =>
    (childLoop (fun cuid => deserializeVariant fuel full cuid (some dump.uid) (some dump.arches))
      (some dump.uid) (some dump.arches) []
      (match dump.variants with
       | some ids => (sortedStrings ids).map (fun i => dump.uid ++ "-" ++ i)
       | none => (full.map (fun kv => kv.1)).filter (fun k => strStartsWith k (uidKey ++ "-")))) >>= fun children =>
    let t := VTree.mk dump.vid dump.uid dump.vname dump.vtype dump.arches
      (pathsDeserialize dump.arches dump.paths) children
    (treeValidate parentUid parentArches t) >>= fun _ =>
    pure t

/-- The head of Python `uid.rsplit("-", 1)`: everything before the last
dash. -/
def rsplitHead (s : String) : String :=
  match (splitOnChar '-' s.data).reverse with
  | _ :: rest => ⟨joinWithChar '-' rest.reverse⟩
  | [] => s

/-- The root-key selection of `Variants.deserialize`: a dashed uid is a
root only when the part before its last dash is not itself a key; the
selected keys are sorted before decoding. -/
def variantsRootIds (full : List (String × VDump)) : List String :=
  sortedStrings
    (full.foldl (fun acc kv =>
      if kv.1.data.contains '-' then
        if (full.map (fun kv2 => kv2.1)).contains (rsplitHead kv.1) then acc
        else acc ++ [kv.1]
      else acc ++ [kv.1]) [])

/-- `Variants.deserialize`: select and sort the root uids, then decode
and add each into the container.  The fuel is the number of dumps plus
one, a bound the nesting depth of a finite uid hierarchy cannot
exceed. -/
def variantsDeserialize (full : List (String × VDump)) : Except DErr (List (String × VTree)) :=
  childLoop (fun uid => deserializeVariant (full.length + 1) full uid none none)
    none none [] (variantsRootIds full)

/-- The uid-composition invariant on decoded trees: the claims'
property that a variant with a parent has `uid = parent.uid + "-" + id`
and a root variant has `uid.replace("-","") = id`, recursively. -/
inductive TreeUidOk : Option String → VTree → Prop where
  | mk : ∀ (pu : Option String) (t : VTree),
      (match pu with
       | none => stripDashes t.uid = t.vid
       | some u => t.uid = u ++ "-" ++ t.vid) →
      (∀ kv ∈ t.children, TreeUidOk (some t.uid) kv.2) →
      TreeUidOk pu t

def demoDumpServer : VDump :=
  { vid := "Server", uid := "Server", vname := "Server", vtype := "variant",
    arches := ["x86_64"], paths := [("os_tree", [("x86_64", "Server/x86_64/os")])],
    release := none, variants := some ["optional"] }

def demoDumpOptional : VDump :=
  { vid := "optional", uid := "Server-optional", vname := "optional", vtype := "optional",
    arches := ["x86_64"], paths := [], release := none, variants := none }

example :
    (variantsDeserialize [("Server", demoDumpServer), ("Server-optional", demoDumpOptional)]).isOk = true := by
  rfl
theorem treeValidate_uid (pu : Option String) (pa : Option (List String)) (t : VTree)
    (h : treeValidate pu pa t = .ok ()) :
    (pu = none → stripDashes t.uid = t.vid) ∧
      (∀ u, pu = some u → t.uid = u ++ "-" ++ t.vid) := by
  unfold treeValidate at h
  obtain ⟨_, h⟩ := bindUnitOk _ _ _ h
  obtain ⟨_, h⟩ := bindUnitOk _ _ _ h
  obtain ⟨_, h⟩ := bindUnitOk _ _ _ h
  obtain ⟨_, h⟩ := bindUnitOk _ _ _ h
  obtain ⟨_, h⟩ := bindUnitOk _ _ _ h
  obtain ⟨huid, _⟩ := bindUnitOk _ _ _ h
  constructor
  · intro hpu
    subst hpu
    have huid2 : (if (stripDashes t.uid != t.vid) = true then (throw DErr.valueError : Except DErr Unit) else pure ()) = .ok () := huid
    by_cases he : stripDashes t.uid = t.vid
    · exact he
    · exfalso
      have hb : (stripDashes t.uid != t.vid) = true := by simp [bne_iff_ne, he]
      rw [hb] at huid2
      simp [throw, throwThe, MonadExceptOf.throw] at huid2
  · intro u hpu
    subst hpu
    have huid2 : (if (t.uid != u ++ "-" ++ t.vid) = true then (throw DErr.valueError : Except DErr Unit) else pure ()) = .ok () := huid
    by_cases he : t.uid = u ++ "-" ++ t.vid
    · exact he
    · exfalso
      have hb : (t.uid != u ++ "-" ++ t.vid) = true := by simp [bne_iff_ne, he]
      rw [hb] at huid2
      simp [throw, throwThe, MonadExceptOf.throw] at huid2

theorem childLoop_uidOk (f : String → Except DErr VTree) (pu : Option String)
    (pa : Option (List String)) (hf : ∀ k t, f k = .ok t → TreeUidOk pu t) :
    ∀ (keys : List String) (acc out : List (String × VTree)),
      (∀ kv ∈ acc, TreeUidOk pu kv.2) →
      childLoop f pu pa acc keys = .ok out → ∀ kv ∈ out, TreeUidOk pu kv.2 := by
  intro keys
  induction keys with
  | nil =>
    intro acc out hacc h
    unfold childLoop at h
    cases h
    exact hacc
  | cons cuid rest ih =>
    intro acc out hacc h
    unfold childLoop at h
    rw [bindOkIff] at h
    obtain ⟨child, hchild, h⟩ := h
    rw [bindOkIff] at h
    obtain ⟨u1, _, h⟩ := h
    rw [bindOkIff] at h
    obtain ⟨u2, _, h⟩ := h
    refine ih (acc ++ [(child.vid, child)]) out ?_ h
    intro kv hkv
    rw [List.mem_append] at hkv
    cases hkv with
    | inl hin => exact hacc kv hin
    | inr hin =>
      rw [List.mem_singleton] at hin
      rw [hin]
      exact hf cuid child hchild

theorem deserializeVariant_uidOk :
    ∀ (fuel : Nat) (full : List (String × VDump)) (uidKey : String)
      (pu : Option String) (pa : Option (List String)) (t : VTree),
      deserializeVariant fuel full uidKey pu pa = .ok t → TreeUidOk pu t := by
  intro fuel
  induction fuel with
  | zero =>
    intro full uidKey pu pa t h
    exact absurd h (by simp [deserializeVariant])
  | succ n ih =>
    intro full uidKey pu pa t h
    unfold deserializeVariant at h
    rw [bindOkIff] at h
    obtain ⟨dump, _, h⟩ := h
    rw [bindOkIff] at h
    obtain ⟨u1, _, h⟩ := h
    rw [bindOkIff] at h
    obtain ⟨children, hch, h⟩ := h
    rw [bindOkIff] at h
    obtain ⟨u2, hval, hpure⟩ := h
    have ht : t = VTree.mk dump.vid dump.uid dump.vname dump.vtype dump.arches
        (pathsDeserialize dump.arches dump.paths) children := by
      cases hpure
      rfl
    subst ht
    cases u2
    refine TreeUidOk.mk pu _ ?_ ?_
    · cases pu with
      | none => exact (treeValidate_uid none pa _ hval).1 rfl
      | some u => exact (treeValidate_uid (some u) pa _ hval).2 u rfl
    intro kv hkv
    have huid : (VTree.mk dump.vid dump.uid dump.vname dump.vtype dump.arches
        (pathsDeserialize dump.arches dump.paths) children).uid = dump.uid := rfl
    rw [huid]
    refine childLoop_uidOk _ (some dump.uid) (some dump.arches)
      (fun k t' h' => ih full k (some dump.uid) (some dump.arches) t' h') _ [] children
      (by intro kv2 hkv2; cases hkv2) hch kv hkv

theorem variantsDeserialize_uidOk (full : List (String × VDump))
    (roots : List (String × VTree)) (h : variantsDeserialize full = .ok roots) :
    ∀ kv ∈ roots, TreeUidOk none kv.2 := by
  unfold variantsDeserialize at h
  refine childLoop_uidOk _ none none ?_ _ [] roots (by intro kv hkv; cases hkv) h
  intro k t ht
  exact deserializeVariant_uidOk (full.length + 1) full k none none t ht
/-! ### Round-trip lemmas for the release-identifier codec -/

theorem strMkData (s : String) : (⟨s.data⟩ : String) = s := by
  cases s
  rfl

theorem dataAppend (s t : String) : (s ++ t).data = s.data ++ t.data := rfl

theorem dataAppendDash (s v : String) : (s ++ "-" ++ v).data = s.data ++ '-' :: v.data := by
  rw [dataAppend, dataAppend]
  rw [show ("-" : String).data = ['-'] from rfl]
  simp

theorem dashWord_no_at (l : List Char) (h : matchesDashWord l = true) : '@' ∉ l := by
  intro hmem
  unfold matchesDashWord at h
  cases l with
  | nil => cases hmem
  | cons c cs =>
    simp only [Bool.and_eq_true] at h
    have hall := h.1.1.2
    rw [List.all_eq_true] at hall
    have := hall '@' hmem
    simp [isAsciiLower, isAsciiDigit] at this

theorem dashWord_nonempty (l : List Char) (h : matchesDashWord l = true) : l ≠ [] := by
  intro he
  rw [he] at h
  exact absurd h (by decide)

/-- No release type is a proper suffix of another (checked over all 81
pairs). -/
theorem releaseTypes_no_suffix :
    ∀ a ∈ RELEASE_TYPES, ∀ b ∈ RELEASE_TYPES, a ≠ b → a.data.isSuffixOf b.data = false := by
  decide

theorem find?_unique {α : Type} (p : α → Bool) (t : α) :
    ∀ l : List α, t ∈ l → p t = true → (∀ x ∈ l, p x = true → x = t) →
      l.find? p = some t := by
  intro l
  induction l with
  | nil => intro h; cases h
  | cons a rest ih =>
    intro hmem hpt huniq
    cases hpa : p a with
    | true =>
      rw [List.find?_cons_of_pos _ hpa]
      rw [huniq a (List.mem_cons_self a rest) hpa]
    | false =>
      rw [List.find?_cons_of_neg _ (by simp [hpa])]
      have hmem2 : t ∈ rest := by
        cases List.mem_cons.mp hmem with
        | inl he => rw [← he] at hpa; rw [hpt] at hpa; cases hpa
        | inr hr => exact hr
      exact ih hmem2 hpt (fun x hx hp => huniq x (List.mem_cons_of_mem a hx) hp)
theorem splitOnChar_append_general (sep : Char) (a l : List Char) :
    splitOnChar sep (a ++ sep :: l) = splitOnChar sep a ++ splitOnChar sep l := by
  induction a with
  | nil => simp [splitOnChar]
  | cons c rest ih =>
    by_cases hc : c = sep
    · simp only [List.cons_append, splitOnChar, if_pos hc]
      rw [show rest.append (sep :: l) = rest ++ sep :: l from rfl, ih]
    · simp only [List.cons_append, splitOnChar, hc, if_false]
      rw [show rest.append (sep :: l) = rest ++ sep :: l from rfl, ih]
      cases hr : splitOnChar sep rest with
      | nil => exact absurd hr (splitOnChar_ne_nil sep rest)
      | cons h0 t0 => rfl

theorem joinWithChar_splitOnChar (sep : Char) (l : List Char) :
    joinWithChar sep (splitOnChar sep l) = l := by
  induction l with
  | nil => rfl
  | cons c rest ih =>
    by_cases hc : c = sep
    · simp only [splitOnChar, hc, if_pos rfl]
      cases hr : splitOnChar sep rest with
      | nil => exact absurd hr (splitOnChar_ne_nil sep rest)
      | cons h0 t0 =>
        rw [hr] at ih
        simp only [joinWithChar]
        rw [ih]
        rfl
    · simp only [splitOnChar, hc, if_false]
      cases hr : splitOnChar sep rest with
      | nil => exact absurd hr (splitOnChar_ne_nil sep rest)
      | cons h0 t0 =>
        rw [hr] at ih
        cases t0 with
        | nil =>
          simp only [joinWithChar] at ih ⊢
          rw [ih]
        | cons t1 t2 =>
          simp only [joinWithChar] at ih ⊢
          rw [List.cons_append, ih]

theorem rsplit2_generic (a v c : List Char) (hv : ∀ x ∈ v, x ≠ '-') (hc : ∀ x ∈ c, x ≠ '-') :
    rsplit2 '-' (a ++ '-' :: (v ++ '-' :: c)) = some (a, v, c) := by
  have hsa : splitOnChar '-' (a ++ '-' :: (v ++ '-' :: c)) = splitOnChar '-' a ++ [v, c] := by
    rw [splitOnChar_append_general, splitOnChar_append_sep '-' v c hv,
        splitOnChar_no_sep '-' c hc]
  obtain ⟨y, ys, hys⟩ : ∃ y ys, (splitOnChar '-' a).reverse = y :: ys := by
    cases h : (splitOnChar '-' a).reverse with
    | nil =>
      have := congrArg List.reverse h
      rw [List.reverse_reverse] at this
      exact absurd this (splitOnChar_ne_nil '-' a)
    | cons y ys => exact ⟨y, ys, rfl⟩
  have h2 : (y :: ys).reverse = splitOnChar '-' a := by
    rw [← hys, List.reverse_reverse]
  unfold rsplit2
  rw [hsa, List.reverse_append, hys]
  show some (joinWithChar '-' ((y :: ys).reverse), v, c) = some (a, v, c)
  rw [h2, joinWithChar_splitOnChar]

theorem dataTriple (s v t : String) :
    (s ++ "-" ++ v ++ "-" ++ t).data = s.data ++ '-' :: (v.data ++ '-' :: t.data) := by
  repeat rw [dataAppend]
  rw [show ("-" : String).data = ['-'] from rfl]
  simp

/-- Parsing `short ++ "-" ++ version` with dash-free components recovers
the pair with the implicit "ga" type (the single-dash branch of
`_parse_release_id_part`). -/
theorem parsePart_two (s v : String) (hs : '-' ∉ s.data) (hv : '-' ∉ v.data) :
    parseReleaseIdPartCore (s ++ "-" ++ v).data = .ok (s.data, v.data, "ga".data) := by
  rw [dataAppendDash]
  have hcnt : countChar '-' (s.data ++ '-' :: v.data) = 1 := by
    unfold countChar
    rw [List.count_append, List.count_cons]
    rw [List.count_eq_zero.mpr hs, List.count_eq_zero.mpr hv]
    rfl
  have hsplit : splitOnChar '-' (s.data ++ '-' :: v.data) = [s.data, v.data] := by
    rw [splitOnChar_append_sep '-' s.data v.data (fun c hc he => hs (he ▸ hc)),
        splitOnChar_no_sep '-' v.data (fun c hc he => hv (he ▸ hc))]
  simp only [parseReleaseIdPartCore, hcnt, hsplit]
  rfl
theorem releaseTypes_nonempty : ∀ t ∈ RELEASE_TYPES, t.data ≠ [] := by
  decide

/-- Parsing `short ++ "-" ++ version ++ "-" ++ type` when `type` is a known
release type recovers the triple: the `endswith` loop strips the type and
`rsplit("-", 2)` leaves the dash-bearing short name intact. -/
theorem parsePart_suffix (s v t : String) (hv : '-' ∉ v.data) (ht : t ∈ RELEASE_TYPES) :
    parseReleaseIdPartCore (s ++ "-" ++ v ++ "-" ++ t).data = .ok (s.data, v.data, t.data) := by
  have hL : (s ++ "-" ++ v ++ "-" ++ t).data = (s.data ++ '-' :: (v.data ++ ['-'])) ++ t.data := by
    rw [dataTriple]
    simp
  have hcnt : (countChar '-' (s ++ "-" ++ v ++ "-" ++ t).data == 1) = false := by
    apply beq_eq_false_iff_ne.mpr
    rw [dataTriple]
    unfold countChar
    simp [List.count_append, List.count_cons]
    omega
  have hts : t.data <:+ (s ++ "-" ++ v ++ "-" ++ t).data := by
    rw [hL]
    exact List.suffix_append _ _
  have hfind : RELEASE_TYPES.find?
      (fun ty => ty.data.isSuffixOf (s ++ "-" ++ v ++ "-" ++ t).data) = some t := by
    apply find?_unique _ t RELEASE_TYPES ht
    · exact List.isSuffixOf_iff_suffix.mpr hts
    · intro x hx hpx
      rw [List.isSuffixOf_iff_suffix] at hpx
      by_contra hne
      rcases Nat.le_total x.data.length t.data.length with hle | hle
      · have hsub : x.data <:+ t.data := List.suffix_of_suffix_length_le hpx hts hle
        have hfalse := releaseTypes_no_suffix x hx t ht hne
        rw [List.isSuffixOf_iff_suffix.mpr hsub] at hfalse
        cases hfalse
      · have hsub : t.data <:+ x.data := List.suffix_of_suffix_length_le hts hpx hle
        have hfalse := releaseTypes_no_suffix t ht x hx (Ne.symm hne)
        rw [List.isSuffixOf_iff_suffix.mpr hsub] at hfalse
        cases hfalse
  have htake : List.take ((s ++ "-" ++ v ++ "-" ++ t).data.length - t.data.length)
      (s ++ "-" ++ v ++ "-" ++ t).data = s.data ++ '-' :: (v.data ++ ['-']) := by
    rw [hL, List.length_append, Nat.add_sub_cancel, List.take_left]
  have hrs : rsplit2 '-' (s.data ++ '-' :: (v.data ++ ['-'])) = some (s.data, v.data, []) :=
    rsplit2_generic s.data v.data [] (fun x hx he => hv (he ▸ hx)) (fun x hx => by cases hx)
  simp only [parseReleaseIdPartCore, hcnt, hfind, htake, hrs]
  rfl

/-- Parsing `short ++ "-" ++ version ++ "-" ++ type` when no known release
type is a suffix of the identifier recovers the triple from the last two
dash-delimited segments. -/
theorem parsePart_unknown (s v t : String) (hv : '-' ∉ v.data) (htd : '-' ∉ t.data)
    (hnosuf : ∀ ty ∈ RELEASE_TYPES,
      ty.data.isSuffixOf (s ++ "-" ++ v ++ "-" ++ t).data = false) :
    parseReleaseIdPartCore (s ++ "-" ++ v ++ "-" ++ t).data = .ok (s.data, v.data, t.data) := by
  have hcnt : (countChar '-' (s ++ "-" ++ v ++ "-" ++ t).data == 1) = false := by
    apply beq_eq_false_iff_ne.mpr
    rw [dataTriple]
    unfold countChar
    simp [List.count_append, List.count_cons]
    omega
  have hfind : RELEASE_TYPES.find?
      (fun ty => ty.data.isSuffixOf (s ++ "-" ++ v ++ "-" ++ t).data) = none := by
    rw [List.find?_eq_none]
    intro x hx
    simp only [hnosuf x hx]
    exact Bool.false_ne_true
  have hrs : rsplit2 '-' (s ++ "-" ++ v ++ "-" ++ t).data = some (s.data, v.data, t.data) := by
    rw [dataTriple]
    exact rsplit2_generic s.data v.data t.data (fun x hx he => hv (he ▸ hx))
      (fun x hx he => htd (he ▸ hx))
  simp only [parseReleaseIdPartCore, hcnt, hfind, hrs]
  rfl
theorem createReleaseIdPart_ok (s v t : String) (hs : is_valid_release_short s = true)
    (hv : is_valid_release_version v = true) (ht : is_valid_release_type t = true) :
    createReleaseIdPart s (some v) (some t) =
      .ok (if t == "ga" then s ++ "-" ++ v else s ++ "-" ++ v ++ "-" ++ t) := by
  simp [createReleaseIdPart, hs, hv, ht]
  split <;> rfl

/-- The amended per-part hypotheses under which the release-id codec
round-trips: syntactic validity of the triple, a dash- and at-free
version, a dash-free short name when the type is the implicit "ga", and
otherwise a type that is either a known release type or a dash-free
token such that no known release type is a suffix of the identifier. -/
def partRoundtripHyp (s v t : String) : Prop :=
  is_valid_release_short s = true ∧ is_valid_release_version v = true ∧
  is_valid_release_type t = true ∧ '-' ∉ v.data ∧ '@' ∉ v.data ∧
  (t = "ga" → '-' ∉ s.data) ∧
  (t ≠ "ga" → t ∈ RELEASE_TYPES ∨ ('-' ∉ t.data ∧
    ∀ ty ∈ RELEASE_TYPES, ty.data.isSuffixOf (s ++ "-" ++ v ++ "-" ++ t).data = false))

instance (s v t : String) : Decidable (partRoundtripHyp s v t) := by
  unfold partRoundtripHyp
  infer_instance

/-- One level of the round-trip: under `partRoundtripHyp` the created
identifier part parses back to the original triple, and is free of `@`. -/
theorem releaseIdPart_roundtrip (s v t : String) (h : partRoundtripHyp s v t) :
    ∃ rid : String, createReleaseIdPart s (some v) (some t) = .ok rid ∧
      parseReleaseIdPartCore rid.data = .ok (s.data, v.data, t.data) ∧ '@' ∉ rid.data := by
  obtain ⟨hs, hv, ht, hvd, hva, hga, hother⟩ := h
  have hsat : '@' ∉ s.data := dashWord_no_at s.data hs
  have htat : '@' ∉ t.data := dashWord_no_at t.data ht
  by_cases hcase : t = "ga"
  · refine ⟨s ++ "-" ++ v, ?_, ?_, ?_⟩
    · rw [createReleaseIdPart_ok s v t hs hv ht, if_pos (by rw [hcase]; rfl)]
    · rw [hcase]
      exact parsePart_two s v (hga hcase) hvd
    · rw [dataAppendDash]
      intro hmem
      rcases List.mem_append.mp hmem with hm | hm
      · exact hsat hm
      · rcases List.mem_cons.mp hm with he | hm2
        · cases he
        · exact hva hm2
  · refine ⟨s ++ "-" ++ v ++ "-" ++ t, ?_, ?_, ?_⟩
    · rw [createReleaseIdPart_ok s v t hs hv ht,
        if_neg (by simp only [beq_iff_eq]; exact hcase)]
    · rcases hother hcase with hmem | ⟨htd, hnosuf⟩
      · exact parsePart_suffix s v t hvd hmem
      · exact parsePart_unknown s v t hvd htd hnosuf
    · rw [dataTriple]
      intro hmem
      rcases List.mem_append.mp hmem with hm | hm
      · exact hsat hm
      rcases List.mem_cons.mp hm with he | hm2
      · cases he
      rcases List.mem_append.mp hm2 with hm3 | hm3
      · exact hva hm3
      rcases List.mem_cons.mp hm3 with he | hm4
      · cases he
      · exact htat hm4
theorem contains_eq_false_of_not_mem {c : Char} {l : List Char} (h : c ∉ l) :
    l.contains c = false := by
  by_contra hcc
  rw [Bool.not_eq_false] at hcc
  exact h (List.mem_of_elem_eq_true hcc)

/-- Plain-form round-trip for the whole release identifier. -/
theorem release_id_roundtrip_plain (s v t : String) (h : partRoundtripHyp s v t) :
    ∃ rid : String, create_release_id s v t none none none = .ok rid ∧
      parse_release_id rid = .ok { short := s, version := v, rtype := t } := by
  obtain ⟨rid, hc, hp, hat⟩ := releaseIdPart_roundtrip s v t h
  have hco : rid.data.contains '@' = false := contains_eq_false_of_not_mem hat
  refine ⟨rid, ?_, ?_⟩
  · unfold create_release_id
    rw [hc]
    rfl
  · unfold parse_release_id
    rw [hco]
    show (do
      let (a, b, c) ← parseReleaseIdPartCore rid.data
      pure ({ short := ⟨a⟩, version := ⟨b⟩, rtype := ⟨c⟩ } : ParsedReleaseId)) = .ok { short := s, version := v, rtype := t }
    rw [hp]
    rfl

/-- Layered-form round-trip for the whole release identifier. -/
theorem release_id_roundtrip_layered (s v t bs bv bt : String)
    (h1 : partRoundtripHyp s v t) (h2 : partRoundtripHyp bs bv bt) :
    ∃ rid : String, create_release_id s v t (some bs) (some bv) (some bt) = .ok rid ∧
      parse_release_id rid = .ok { short := s, version := v, rtype := t, bpShort := some bs, bpVersion := some bv, bpType := some bt } := by
  obtain ⟨r1, hc1, hp1, hat1⟩ := releaseIdPart_roundtrip s v t h1
  obtain ⟨r2, hc2, hp2, hat2⟩ := releaseIdPart_roundtrip bs bv bt h2
  have hbs : bs.isEmpty = false := by
    cases hbe : bs.isEmpty with
    | false => rfl
    | true =>
      rw [stringIsEmptyEqNil bs hbe] at h2
      exact absurd h2.1 (by decide)
  have hdata : (r1 ++ "@" ++ r2).data = r1.data ++ '@' :: r2.data := by
    rw [dataAppend, dataAppend, show ("@" : String).data = ['@'] from rfl]
    simp
  have hco : (r1 ++ "@" ++ r2).data.contains '@' = true := by
    rw [hdata]
    exact List.elem_eq_true_of_mem (by simp)
  have hsplit : splitOnChar '@' (r1 ++ "@" ++ r2).data = [r1.data, r2.data] := by
    rw [hdata, splitOnChar_append_sep '@' r1.data r2.data (fun c hc he => hat1 (he ▸ hc)),
        splitOnChar_no_sep '@' r2.data (fun c hc he => hat2 (he ▸ hc))]
  refine ⟨r1 ++ "@" ++ r2, ?_, ?_⟩
  · unfold create_release_id
    rw [hc1, okBind]
    show (if bs.isEmpty = true then pure r1 else do
      let bpid ← createReleaseIdPart bs (some bv) (some bt)
      pure (r1 ++ "@" ++ bpid)) = .ok (r1 ++ "@" ++ r2)
    rw [hbs]
    show (do
      let bpid ← createReleaseIdPart bs (some bv) (some bt)
      pure (r1 ++ "@" ++ bpid)) = .ok (r1 ++ "@" ++ r2)
    rw [hc2]
    rfl
  · unfold parse_release_id
    rw [hco]
    show (match splitOnChar '@' (r1 ++ "@" ++ r2).data with
      | [release, bp] => do
        let (a, b, c) ← parseReleaseIdPartCore release
        let (ba, bb, bc) ← parseReleaseIdPartCore bp
        pure ({ short := ⟨a⟩, version := ⟨b⟩, rtype := ⟨c⟩, bpShort := some ⟨ba⟩, bpVersion := some ⟨bb⟩, bpType := some ⟨bc⟩ } : ParsedReleaseId)
      | _ => throw PErr.unpackError) = .ok { short := s, version := v, rtype := t, bpShort := some bs, bpVersion := some bv, bpType := some bt }
    rw [hsplit]
    show (do
      let (a, b, c) ← parseReleaseIdPartCore r1.data
      let (ba, bb, bc) ← parseReleaseIdPartCore r2.data
      pure ({ short := ⟨a⟩, version := ⟨b⟩, rtype := ⟨c⟩, bpShort := some ⟨ba⟩, bpVersion := some ⟨bb⟩, bpType := some ⟨bc⟩ } : ParsedReleaseId)) = .ok { short := s, version := v, rtype := t, bpShort := some bs, bpVersion := some bv, bpType := some bt }
    rw [hp1, hp2]
    rfl
/-! ## Images (`productmd/images.py`) -/

/-- `IMAGE_TYPE_FORMAT_MAPPING` from `productmd/images.py`, in source
order. -/
def IMAGE_TYPE_FORMAT_MAPPING : List (String × List String) := [
  ("appx", ["appx"]),
  ("boot", ["iso"]),
  ("bootable-container", ["ociarchive"]),
  ("cd", ["iso"]),
  ("container", ["tar.xz", "oci", "ociarchive"]),
  ("docker", ["tar.gz", "tar.xz"]),
  ("dvd", ["iso"]),
  ("dvd-debuginfo", ["iso"]),
  ("dvd-ostree", ["iso"]),
  ("dvd-ostree-osbuild", ["iso"]),
  ("ec2", []),
  ("fex", ["erofs.xz", "erofs.gz", "erofs", "squashfs.xz", "squashfs.gz", "squashfs"]),
  ("kvm", []),
  ("live", []),
  ("live-osbuild", ["iso"]),
  ("liveimg-squashfs", ["liveimg.squashfs"]),
  ("netinst", ["iso"]),
  ("ociarchive", ["ociarchive"]),
  ("p2v", []),
  ("qcow", ["qcow"]),
  ("qcow2", ["qcow2"]),
  ("raw", ["raw"]),
  ("raw-xz", ["raw.xz"]),
  ("rescue", []),
  ("rhevm-ova", ["rhevm.ova"]),
  ("tar-gz", ["tar.gz"]),
  ("vagrant-hyperv", ["vagrant-hyperv.box"]),
  ("vagrant-libvirt", ["vagrant-libvirt.box"]),
  ("vagrant-virtualbox", ["vagrant-virtualbox.box"]),
  ("vagrant-vmware-fusion", ["vagrant-vmware-fusion.box"]),
  ("vdi", ["vdi"]),
  ("vmdk", ["vmdk"]),
  ("vpc", ["vhd"]),
  ("vhd-compressed", ["vhd.gz", "vhd.xz", "vhdfixed.xz"]),
  ("vsphere-ova", ["vsphere.ova"]),
  ("wsl2", ["tar", "tar.gz", "wsl"])]

/-- `SUPPORTED_IMAGE_TYPES = list(sorted(IMAGE_TYPE_FORMAT_MAPPING.keys()))`. -/
def SUPPORTED_IMAGE_TYPES : List String :=
  sortedStrings (IMAGE_TYPE_FORMAT_MAPPING.map (fun p => p.1))

/-- `SUPPORTED_IMAGE_FORMATS = list(sorted(set(chain(*IMAGE_TYPE_FORMAT_MAPPING.values()))))`. -/
def SUPPORTED_IMAGE_FORMATS : List String :=
  sortedStrings ((IMAGE_TYPE_FORMAT_MAPPING.map (fun p => p.2)).flatten.eraseDups)

/-- One image (`Image`).  `itype`/`iformat` stand for the Python
attributes `type`/`format`; `location` is the internal `_location`. -/
structure Image where
  path : Option String := none
  mtime : Option Int := none
  size : Option Int := none
  volume_id : Option String := none
  itype : Option String := none
  iformat : Option String := none
  arch : Option String := none
  disc_number : Option Int := none
  disc_count : Option Int := none
  checksums : List (String × String) := []
  implant_md5 : Option String := none
  bootable : Bool := false
  subvariant : Option String := none
  unified : Bool := false
  additional_variants : List String := []
  location : Option Location := none
deriving DecidableEq, Repr

/-- `Image._validate_arch`: a string (not `None`), not blank. -/
def imgValidateArch (i : Image) : Except PErr Unit :=
  match i.arch with
  | none => .error PErr.typeError
  | some a => if a.data = [] then .error PErr.valueError else pure ()

/-- `Image._validate_bootable`: `bootable` is always a bool here. -/
def imgValidateBootable (_ : Image) : Except PErr Unit := pure ()

/-- `Image._validate_checksums`: a dict, not blank (non-empty). -/
def imgValidateChecksums (i : Image) : Except PErr Unit :=
  if i.checksums = [] then .error PErr.valueError else pure ()

/-- `Image._validate_disc_count`: an int (not `None`). -/
def imgValidateDiscCount (i : Image) : Except PErr Unit :=
  match i.disc_count with
  | none => .error PErr.typeError
  | some _ => pure ()

/-- `Image._validate_disc_number`: an int (not `None`). -/
def imgValidateDiscNumber (i : Image) : Except PErr Unit :=
  match i.disc_number with
  | none => .error PErr.typeError
  | some _ => pure ()

/-- `Image._validate_format`: a string, member of `SUPPORTED_IMAGE_FORMATS`. -/
def imgValidateFormat (i : Image) : Except PErr Unit :=
  match i.iformat with
  | none => .error PErr.typeError
  | some f => if SUPPORTED_IMAGE_FORMATS.contains f then pure () else .error PErr.valueError

/-- Matcher for `^[a-z0-9]{32}$` (`_validate_implant_md5`). -/
def matchesImplantMd5 (l : List Char) : Bool :=
  l.length == 32 && l.all (fun c => isAsciiLower c || isAsciiDigit c)

/-- `Image._validate_implant_md5`: `None`, or a string matching
`^[a-z0-9]{32}$`. -/
def imgValidateImplantMd5 (i : Image) : Except PErr Unit :=
  match i.implant_md5 with
  | none => pure ()
  | some s => if matchesImplantMd5 s.data then pure () else .error PErr.valueError

/-- `Image._validate_merges_variants`: `additional_variants` is a list,
and non-empty only on unified images. -/
def imgValidateMergesVariants (i : Image) : Except PErr Unit :=
  if i.additional_variants ≠ [] && !i.unified then .error PErr.valueError else pure ()

/-- `Image._validate_mtime`: an int (not `None`). -/
def imgValidateMtime (i : Image) : Except PErr Unit :=
  match i.mtime with
  | none => .error PErr.typeError
  | some _ => pure ()

/-- `Image._validate_path`: a string, not blank. -/
def imgValidatePath (i : Image) : Except PErr Unit :=
  match i.path with
  | none => .error PErr.typeError
  | some p => if p.data = [] then .error PErr.valueError else pure ()

/-- `Image._validate_size`: an int, not blank (`0` is falsy, so a zero
size fails `_assert_not_blank`). -/
def imgValidateSize (i : Image) : Except PErr Unit :=
  match i.size with
  | none => .error PErr.typeError
  | some n => if n = 0 then .error PErr.valueError else pure ()

/-- `Image._validate_subvariant`: a string (not `None`). -/
def imgValidateSubvariant (i : Image) : Except PErr Unit :=
  match i.subvariant with
  | none => .error PErr.typeError
  | some _ => pure ()

/-- `Image._validate_type`: a string, member of `SUPPORTED_IMAGE_TYPES`. -/
def imgValidateType (i : Image) : Except PErr Unit :=
  match i.itype with
  | none => .error PErr.typeError
  | some t => if SUPPORTED_IMAGE_TYPES.contains t then pure () else .error PErr.valueError

/-- `Image._validate_unified`: `unified` is always a bool here. -/
def imgValidateUnified (_ : Image) : Except PErr Unit := pure ()

/-- `Image._validate_volume_id`: `None`, or a non-blank string. -/
def imgValidateVolumeId (i : Image) : Except PErr Unit :=
  match i.volume_id with
  | none => pure ()
  | some v => if v.data = [] then .error PErr.valueError else pure ()

/-- `Image.validate` (`MetadataBase.validate`): the `_validate_*`
methods run in alphabetical order of their names. -/
def imageValidate (i : Image) : Except PErr Unit :=
  imgValidateArch i >>= fun _ =>
  imgValidateBootable i >>= fun _ =>
  imgValidateChecksums i >>= fun _ =>
  imgValidateDiscCount i >>= fun _ =>
  imgValidateDiscNumber i >>= fun _ =>
  imgValidateFormat i >>= fun _ =>
  imgValidateImplantMd5 i >>= fun _ =>
  imgValidateMergesVariants i >>= fun _ =>
  imgValidateMtime i >>= fun _ =>
  imgValidatePath i >>= fun _ =>
  imgValidateSize i >>= fun _ =>
  imgValidateSubvariant i >>= fun _ =>
  imgValidateType i >>= fun _ =>
  imgValidateUnified i >>= fun _ =>
  imgValidateVolumeId i

/-- The checksum string synthesized from a v1.x `checksums` dict when no
explicit Location exists: prefer `sha256`, else the first algorithm
(`Image.location` and `ExtraFiles._serialize_v2` use the same logic). -/
def synthChecksumStr (checksums : List (String × String)) : Option String :=
  match checksums with
  | [] => none
  | (a0, d0) :: _ =>
    match checksums.lookup "sha256" with
    | some d => some ("sha256:" ++ d)
    | none => some (a0 ++ ":" ++ d0)

/-- The `Image.location` property: the stored `_location`, else a
Location synthesized from `path`/`size`/`checksums` with
`url = local_path = path`. -/
def imageLocation (i : Image) : Location :=
  match i.location with
  | some loc => loc
  | none => { url := i.path, size := i.size, checksum := synthChecksumStr i.checksums,
              local_path := i.path, contents := [] }
/-- The serialized form of one image: `path`/`size`/`checksums` appear
only at v1.x, `location` only at v2.0, and `unified`/
`additional_variants` only when the image is unified. -/
structure ImageDict where
  path : Option String := none
  location : Option LocationDict := none
  mtime : Option Int := none
  size : Option Int := none
  volume_id : Option String := none
  itype : Option String := none
  iformat : Option String := none
  arch : Option String := none
  disc_number : Option Int := none
  disc_count : Option Int := none
  checksums : Option (List (String × String)) := none
  implant_md5 : Option String := none
  bootable : Bool := false
  subvariant : Option String := none
  unified : Option Bool := none
  additional_variants : Option (List String) := none
deriving DecidableEq, Repr

/-- The version resolution at the top of `Image.serialize`: the parent
`Images` instance's `get_output_version(force_version)` when a parent
exists (the outer `Option` carries the parent's stamped
`output_version`), else `force_version`, else `OUTPUT_FORMAT_VERSION`. -/
def imageResolveVersion (parentStamp : Option (Option Version)) (force : Option Version) : Version :=
  match parentStamp with
  | some stamp => get_output_version force stamp
  | none =>
    match force with
    | some v => v
    | none => OUTPUT_FORMAT_VERSION

/-- `Image.serialize`: validate, resolve the output version, then append
the v2.0 dict (with a validated, serialized location) or the v1.x dict,
adding the `unified` fields only for unified images. -/
def imageSerialize (parentStamp : Option (Option Version)) (force : Option Version)
    (i : Image) : Except PErr ImageDict :=
  imageValidate i >>= fun _ =>
  (if verLe VERSION_2_0 (imageResolveVersion parentStamp force) then
    locSerialize (imageLocation i) >>= fun locd =>
    pure { location := some locd, mtime := i.mtime, volume_id := i.volume_id, itype := i.itype, iformat := i.iformat, arch := i.arch, disc_number := i.disc_number, disc_count := i.disc_count, implant_md5 := i.implant_md5, bootable := i.bootable, subvariant := i.subvariant : ImageDict }
  else
    pure { path := i.path, mtime := i.mtime, size := i.size, volume_id := i.volume_id, itype := i.itype, iformat := i.iformat, arch := i.arch, disc_number := i.disc_number, disc_count := i.disc_count, checksums := some i.checksums, implant_md5 := i.implant_md5, bootable := i.bootable, subvariant := i.subvariant : ImageDict }) >>= fun base =>
  if i.unified then
    pure { base with unified := some true, additional_variants := some i.additional_variants }
  else
    pure base

/-- The sort key of `Images.serialize`: `i.path or ""`. -/
def imageSortKey (i : Image) : String :=
  match i.path with
  | some p => p
  | none => ""

/-- Insertion step of the ascending sort on `imageSortKey`. -/
def insertImage (x : Image) : List Image → List Image
  | [] => [x]
  | y :: ys =>
    if charListLt (imageSortKey x).data (imageSortKey y).data then x :: y :: ys
    else y :: insertImage x ys

/-- `sorted(images, key=lambda i: i.path or "")`. -/
def sortImages : List Image → List Image
  | [] => []
  | x :: xs => insertImage x (sortImages xs)

/-- A two-level `variant → arch → value` mapping. -/
abbrev Nest2 (α : Type) : Type := List (String × List (String × α))

/-- The in-memory `Images` entity: compose section, the nested
`images` mapping, and the stamped `output_version` (if any). -/
structure Images where
  compose : ComposeData
  images : Nest2 (List Image)
  outputVersionStamp : Option Version := none
deriving Repr

/-- The serialized images file: header, compose section and the nested
image lists. -/
structure ImagesFile where
  header : HeaderDict
  compose : ComposeDict
  images : Nest2 (List ImageDict)
deriving Repr

/-- `Images.serialize`: resolve the output version, write the header
with it, serialize the compose section, and serialize each per-arch
image list sorted by path, handing the resolved version down to
`Image.serialize` as its `force_version`. -/
def images_serialize (x : Images) (forceVersion : Option Version) : Except PErr ImagesFile :=
  let ov := get_output_version forceVersion x.outputVersionStamp
  let header : HeaderDict := { headerSerialize "productmd.images" with hversion := version_to_string ov }
  composeSerialize x.compose >>= fun cd =>
  mapPairsExcept (fun archmap => mapPairsExcept
    (fun lst => mapExcept (imageSerialize (some x.outputVersionStamp) (some ov)) (sortImages lst))
    archmap) x.images >>= fun imgs =>
  pure { header := header, compose := cd, images := imgs }
/-! ## Extra files (`productmd/extra_files.py`) -/

/-- One internal extra-file entry (`{"file", "size", "checksums"}` plus
the internal `_location`). -/
structure ExtraFileEntry where
  file : String
  size : Option Int := none
  checksums : List (String × String) := []
  location : Option Location := none
deriving DecidableEq, Repr

/-- `os.path.basename`: everything after the last `/`. -/
def osPathBasename (s : String) : String :=
  ⟨(splitOnChar '/' s.data).getLastD []⟩

/-- The v1.x serialized form of an extra-file entry. -/
structure ExtraFileV1Dict where
  file : String
  size : Option Int
  checksums : List (String × String)
deriving DecidableEq, Repr

/-- The v2.0 serialized form of an extra-file entry. -/
structure ExtraFileV2Dict where
  file : String
  location : LocationDict
deriving DecidableEq, Repr

/-- `_serialize_v1` per entry: strip `_location`, keep the v1.x fields. -/
def extraFileSerializeV1 (e : ExtraFileEntry) : ExtraFileV1Dict :=
  { file := e.file, size := e.size, checksums := e.checksums }

/-- The location a v2.0 serialization uses for an extra-file entry: the
explicit `_location`, else one synthesized from the v1.x fields with
`url = local_path = file` and the checksum preferring `sha256`. -/
def extraFileEffectiveLocation (e : ExtraFileEntry) : Location :=
  match e.location with
  | some loc => loc
  | none => { url := some e.file, size := e.size, checksum := synthChecksumStr e.checksums,
              local_path := some e.file, contents := [] }

/-- `_serialize_v2` per entry: the basename of the file plus the
validated, serialized location. -/
def extraFileSerializeV2 (e : ExtraFileEntry) : Except PErr ExtraFileV2Dict :=
  locSerialize (extraFileEffectiveLocation e) >>= fun locd =>
  pure { file := osPathBasename e.file, location := locd }

/-- The serialized `extra_files` payload: v1.x entries or v2.0 entries. -/
inductive ExtraPayload : Type
  | v1 (m : Nest2 (List ExtraFileV1Dict))
  | v2 (m : Nest2 (List ExtraFileV2Dict))
deriving DecidableEq, Repr

/-- The in-memory `ExtraFiles` entity. -/
structure ExtraFiles where
  compose : ComposeData
  extra_files : Nest2 (List ExtraFileEntry)
  outputVersionStamp : Option Version := none
deriving Repr

/-- The serialized extra-files file. -/
structure ExtraFilesFile where
  header : HeaderDict
  compose : ComposeDict
  extra_files : ExtraPayload
deriving Repr

/-- `ExtraFiles.serialize`: validate (`ExtraFiles` defines no
`_validate_*` methods, so this checks nothing), resolve the output
version, write the header with it, serialize the compose section, and
emit the v2.0 or v1.x payload. -/
def extra_files_serialize (x : ExtraFiles) (forceVersion : Option Version) :
    Except PErr ExtraFilesFile :=
  let ov := get_output_version forceVersion x.outputVersionStamp
  let header : HeaderDict := { headerSerialize "productmd.extra_files" with hversion := version_to_string ov }
  composeSerialize x.compose >>= fun cd =>
  if verLe VERSION_2_0 ov then
    mapPairsExcept (fun archmap => mapPairsExcept
      (fun entries => mapExcept extraFileSerializeV2 entries) archmap) x.extra_files >>= fun p =>
    pure { header := header, compose := cd, extra_files := .v2 p }
  else
    pure { header := header, compose := cd,
           extra_files := .v1 (mapPairs (mapPairs (fun entries => entries.map extraFileSerializeV1)) x.extra_files) }

/-! ## Modules (`productmd/modules.py`) -/

/-- A `modulemd_path` value: a plain string (v1.0) or a dict mapping
category to path (v1.1+). -/
inductive ModPath : Type
  | str (s : String)
  | dict (m : List (String × String))
deriving DecidableEq, Repr

/-- One internal module entry (`metadata`, `modulemd_path`, `rpms`, and
the internal `_location`). -/
structure ModuleEntry where
  metadata : List (String × String) := []
  modulemd_path : ModPath := .dict []
  rpms : List String := []
  location : Option Location := none
deriving DecidableEq, Repr

/-- Python `d.get(key, default)` on a string dict. -/
def dictGetD (m : List (String × String)) (k d : String) : String :=
  match m.lookup k with
  | some v => v
  | none => d

/-- `Modules._get_modulemd_path`: the string itself, or the first value
of a non-empty dict, or `""`. -/
def get_modulemd_path (e : ModuleEntry) : String :=
  match e.modulemd_path with
  | .str s => s
  | .dict [] => ""
  | .dict ((_, v) :: _) => v

/-- The v1.x serialized form of a module entry (copies of the fields,
`_location` stripped). -/
structure ModuleV1Dict where
  metadata : List (String × String)
  modulemd_path : ModPath
  rpms : List String
deriving DecidableEq, Repr

/-- The v2.0 serialized form of a module entry. -/
structure ModuleV2Dict where
  name : String
  stream : String
  version : String
  context : String
  arch : String
  location : LocationDict
  rpms : List String
deriving DecidableEq, Repr

/-- `_serialize_v1` per entry. -/
def moduleSerializeV1 (e : ModuleEntry) : ModuleV1Dict :=
  { metadata := e.metadata, modulemd_path := e.modulemd_path, rpms := e.rpms }

/-- The location a v2.0 serialization uses for a module entry: the
explicit `_location`, else `Location(url=path, local_path=path)` with
the first modulemd path. -/
def moduleEffectiveLocation (e : ModuleEntry) : Location :=
  match e.location with
  | some loc => loc
  | none => { url := some (get_modulemd_path e), size := none, checksum := none,
              local_path := some (get_modulemd_path e), contents := [] }

/-- `_serialize_v2` per entry: flattened name/stream/version/context
from `metadata` (defaulting to `""`), the arch key, the validated
serialized location, and the rpms list. -/
def moduleSerializeV2 (arch : String) (e : ModuleEntry) : Except PErr ModuleV2Dict :=
  locSerialize (moduleEffectiveLocation e) >>= fun locd =>
  pure { name := dictGetD e.metadata "name" "", stream := dictGetD e.metadata "stream" "",
         version := dictGetD e.metadata "version" "", context := dictGetD e.metadata "context" "",
         arch := arch, location := locd, rpms := e.rpms }

/-- A three-level `variant → arch → uid → value` mapping. -/
abbrev Nest3 (α : Type) : Type := List (String × List (String × List (String × α)))

/-- `mapPairsExcept` whose function also sees the key (needed where the
arch key is written into each serialized module entry). -/
def mapPairsExceptKey (f : String → α → Except PErr β) :
    List (String × α) → Except PErr (List (String × β))
  | [] => .ok []
  | (k, a) :: rest => do
    let b ← f k a
    let r ← mapPairsExceptKey f rest
    pure ((k, b) :: r)

/-- The serialized `modules` payload: v1.x entries or v2.0 entries. -/
inductive ModulesPayload : Type
  | v1 (m : Nest3 ModuleV1Dict)
  | v2 (m : Nest3 ModuleV2Dict)
deriving DecidableEq, Repr

/-- The in-memory `Modules` entity. -/
structure Modules where
  compose : ComposeData
  modules : Nest3 ModuleEntry
  outputVersionStamp : Option Version := none
deriving Repr

/-- The serialized modules file. -/
structure ModulesFile where
  header : HeaderDict
  compose : ComposeDict
  modules : ModulesPayload
deriving Repr

/-- `Modules.serialize`: validate (`Modules` defines no `_validate_*`
methods, so this checks nothing), resolve the output version, write the
header with it, serialize the compose section, and emit the v2.0 or
v1.x payload. -/
def modules_serialize (x : Modules) (forceVersion : Option Version) :
    Except PErr ModulesFile :=
  let ov := get_output_version forceVersion x.outputVersionStamp
  let header : HeaderDict := { headerSerialize "productmd.modules" with hversion := version_to_string ov }
  composeSerialize x.compose >>= fun cd =>
  if verLe VERSION_2_0 ov then
    mapPairsExcept (fun archmap => mapPairsExceptKey
      (fun arch uidmap => mapPairsExcept (fun e => moduleSerializeV2 arch e) uidmap)
      archmap) x.modules >>= fun p =>
    pure { header := header, compose := cd, modules := .v2 p }
  else
    pure { header := header, compose := cd,
           modules := .v1 (mapPairs (mapPairs (mapPairs moduleSerializeV1)) x.modules) }
/-! ### Serialization success lemmas -/

/-- A valid image: its validators pass and its effective location
validates (so a v2.0 serialization also succeeds). -/
def imageValid (i : Image) : Bool :=
  isOkB (imageValidate i) && isOkB (locValidate (imageLocation i))

/-- All images of a nested images mapping satisfy `p`. -/
def imagesNestAll (p : Image → Bool) (m : Nest2 (List Image)) : Bool :=
  m.all fun kv1 => kv1.2.all fun kv2 => kv2.2.all p

/-- A valid `Images` entity. -/
def imagesValid (x : Images) : Bool :=
  isOkB (composeValidate x.compose) && imagesNestAll imageValid x.images

/-- A valid extra-file entry: its effective location validates. -/
def extraFileEntryValid (e : ExtraFileEntry) : Bool :=
  isOkB (locValidate (extraFileEffectiveLocation e))

/-- A valid `ExtraFiles` entity. -/
def extraFilesValid (x : ExtraFiles) : Bool :=
  isOkB (composeValidate x.compose) &&
    x.extra_files.all fun kv1 => kv1.2.all fun kv2 => kv2.2.all extraFileEntryValid

/-- A valid module entry: its effective location validates. -/
def moduleEntryValid (e : ModuleEntry) : Bool :=
  isOkB (locValidate (moduleEffectiveLocation e))

/-- A valid `Modules` entity. -/
def modulesValid (x : Modules) : Bool :=
  isOkB (composeValidate x.compose) &&
    x.modules.all fun kv1 => kv1.2.all fun kv2 => kv2.2.all fun kv3 => moduleEntryValid kv3.2

theorem isOkB_unit (x : Except PErr Unit) (h : isOkB x = true) : x = .ok () := by
  cases x with
  | ok u => cases u; rfl
  | error e => cases h

theorem mapExcept_ok_of_all {α β : Type} (f : α → Except PErr β) :
    ∀ l : List α, (∀ a ∈ l, ∃ b, f a = .ok b) → ∃ bs, mapExcept f l = .ok bs := by
  intro l
  induction l with
  | nil => intro _; exact ⟨[], rfl⟩
  | cons a rest ih =>
    intro h
    obtain ⟨b, hb⟩ := h a (List.mem_cons_self a rest)
    obtain ⟨bs, hbs⟩ := ih (fun x hx => h x (List.mem_cons_of_mem a hx))
    refine ⟨b :: bs, ?_⟩
    show (do
      let b ← f a
      let r ← mapExcept f rest
      pure (b :: r)) = .ok (b :: bs)
    rw [hb, okBind, hbs, okBind]
    rfl

theorem mapPairsExcept_ok_of_all {α β : Type} (f : α → Except PErr β) :
    ∀ l : List (String × α), (∀ kv ∈ l, ∃ b, f kv.2 = .ok b) →
      ∃ out, mapPairsExcept f l = .ok out := by
  intro l
  induction l with
  | nil => intro _; exact ⟨[], rfl⟩
  | cons kv rest ih =>
    intro h
    obtain ⟨b, hb⟩ := h kv (List.mem_cons_self kv rest)
    obtain ⟨out, hout⟩ := ih (fun x hx => h x (List.mem_cons_of_mem kv hx))
    refine ⟨(kv.1, b) :: out, ?_⟩
    obtain ⟨k, a⟩ := kv
    show (do
      let b ← f a
      let r ← mapPairsExcept f rest
      pure ((k, b) :: r)) = .ok ((k, b) :: out)
    rw [hb, okBind, hout, okBind]
    rfl

theorem mapPairsExceptKey_ok_of_all {α β : Type} (f : String → α → Except PErr β) :
    ∀ l : List (String × α), (∀ kv ∈ l, ∃ b, f kv.1 kv.2 = .ok b) →
      ∃ out, mapPairsExceptKey f l = .ok out := by
  intro l
  induction l with
  | nil => intro _; exact ⟨[], rfl⟩
  | cons kv rest ih =>
    intro h
    obtain ⟨b, hb⟩ := h kv (List.mem_cons_self kv rest)
    obtain ⟨out, hout⟩ := ih (fun x hx => h x (List.mem_cons_of_mem kv hx))
    refine ⟨(kv.1, b) :: out, ?_⟩
    obtain ⟨k, a⟩ := kv
    show (do
      let b ← f k a
      let r ← mapPairsExceptKey f rest
      pure ((k, b) :: r)) = .ok ((k, b) :: out)
    rw [hb, okBind, hout, okBind]
    rfl

theorem mem_insertImage (x y : Image) (l : List Image) (h : y ∈ insertImage x l) :
    y = x ∨ y ∈ l := by
  induction l with
  | nil =>
    rcases List.mem_cons.mp h with he | he
    · exact Or.inl he
    · cases he
  | cons z zs ih =>
    unfold insertImage at h
    by_cases hc : charListLt (imageSortKey x).data (imageSortKey z).data = true
    · rw [if_pos hc] at h
      rcases List.mem_cons.mp h with he | hm
      · exact Or.inl he
      · exact Or.inr hm
    · rw [if_neg hc] at h
      rcases List.mem_cons.mp h with he | hm
      · exact Or.inr (he ▸ List.mem_cons_self z zs)
      · rcases ih hm with he | hm2
        · exact Or.inl he
        · exact Or.inr (List.mem_cons_of_mem z hm2)

theorem mem_sortImages (y : Image) (l : List Image) (h : y ∈ sortImages l) : y ∈ l := by
  induction l with
  | nil => cases h
  | cons x xs ih =>
    unfold sortImages at h
    rcases mem_insertImage x y (sortImages xs) h with he | hm
    · exact he ▸ List.mem_cons_self x xs
    · exact List.mem_cons_of_mem x (ih hm)

theorem imageSerialize_ok (ps : Option (Option Version)) (force : Option Version)
    (i : Image) (h : imageValid i = true) : ∃ d, imageSerialize ps force i = .ok d := by
  unfold imageValid at h
  rw [Bool.and_eq_true] at h
  have hval : imageValidate i = .ok () := isOkB_unit _ h.1
  have hloc : locValidate (imageLocation i) = .ok () := isOkB_unit _ h.2
  obtain ⟨ld, hld⟩ := locValidate_serialize_ok (imageLocation i) hloc
  unfold imageSerialize
  rw [hval, okBind]
  by_cases hv2 : verLe VERSION_2_0 (imageResolveVersion ps force) = true
  · rw [if_pos hv2, hld, okBind]
    cases hu : i.unified
    · exact ⟨_, rfl⟩
    · exact ⟨_, rfl⟩
  · rw [if_neg hv2]
    cases hu : i.unified
    · exact ⟨_, rfl⟩
    · exact ⟨_, rfl⟩
theorem rpmSerializeV2Entry_ok (e : RpmEntry) (he : rpmEntryValid e = true) :
    ∃ d, rpmSerializeV2Entry e = .ok d := by
  unfold rpmEntryValid at he
  obtain ⟨d, hd⟩ := locValidate_serialize_ok (rpmEffectiveLocation e) (isOkB_unit _ he)
  refine ⟨{ location := d, sigkey := e.sigkey, category := e.category }, ?_⟩
  unfold rpmSerializeV2Entry
  rw [hd, okBind]
  rfl

theorem rpms_serialize_ok (x : Rpms) (force : Option Version) (hx : rpmsValid x = true) :
    ∃ f, rpms_serialize x force = .ok f ∧
      f.header = { htype := "productmd.rpms", hversion := version_to_string (get_output_version force x.outputVersionStamp) } := by
  unfold rpmsValid at hx
  rw [Bool.and_eq_true] at hx
  have hcs := composeValidate_serialize_ok x.compose (isOkB_unit _ hx.1)
  have hall := hx.2
  unfold rpmNestAll at hall
  rw [List.all_eq_true] at hall
  by_cases hv2 : verLe VERSION_2_0 (get_output_version force x.outputVersionStamp) = true
  · obtain ⟨p, hp⟩ : ∃ p, rpmNestMapExcept rpmSerializeV2Entry x.rpms = .ok p := by
      unfold rpmNestMapExcept
      apply mapPairsExcept_ok_of_all
      intro kv1 h1
      have h1a := hall kv1 h1
      rw [List.all_eq_true] at h1a
      apply mapPairsExcept_ok_of_all
      intro kv2 h2
      have h2a := h1a kv2 h2
      rw [List.all_eq_true] at h2a
      apply mapPairsExcept_ok_of_all
      intro kv3 h3
      have h3a := h2a kv3 h3
      rw [List.all_eq_true] at h3a
      apply mapPairsExcept_ok_of_all
      intro kv4 h4
      exact rpmSerializeV2Entry_ok kv4.2 (h3a kv4 h4)
    obtain ⟨cd, hcs2⟩ : ∃ cd, composeSerialize x.compose = .ok cd := ⟨_, hcs⟩
    have hser : rpms_serialize x force = .ok { header := { htype := "productmd.rpms", hversion := version_to_string (get_output_version force x.outputVersionStamp) }, compose := cd, rpms := RpmsPayloadDict.v2 p } := by
      simp only [rpms_serialize]
      rw [hcs2, okBind, if_pos hv2, hp, okBind]
      rfl
    exact ⟨_, hser, rfl⟩
  · obtain ⟨cd, hcs2⟩ : ∃ cd, composeSerialize x.compose = .ok cd := ⟨_, hcs⟩
    have hser : rpms_serialize x force = .ok { header := { htype := "productmd.rpms", hversion := version_to_string (get_output_version force x.outputVersionStamp) }, compose := cd, rpms := RpmsPayloadDict.v1 (rpmNestMap rpmSerializeV1Entry x.rpms) } := by
      simp only [rpms_serialize]
      rw [hcs2, okBind, if_neg hv2]
      rfl
    exact ⟨_, hser, rfl⟩
theorem images_serialize_ok (x : Images) (force : Option Version) (hx : imagesValid x = true) :
    ∃ f, images_serialize x force = .ok f ∧
      f.header = { htype := "productmd.images", hversion := version_to_string (get_output_version force x.outputVersionStamp) } := by
  unfold imagesValid at hx
  rw [Bool.and_eq_true] at hx
  obtain ⟨cd, hcs2⟩ : ∃ cd, composeSerialize x.compose = .ok cd :=
    ⟨_, composeValidate_serialize_ok x.compose (isOkB_unit _ hx.1)⟩
  have hall := hx.2
  unfold imagesNestAll at hall
  rw [List.all_eq_true] at hall
  obtain ⟨imgs, hp⟩ : ∃ imgs, mapPairsExcept (fun archmap => mapPairsExcept
      (fun lst => mapExcept (imageSerialize (some x.outputVersionStamp)
        (some (get_output_version force x.outputVersionStamp))) (sortImages lst))
      archmap) x.images = .ok imgs := by
    apply mapPairsExcept_ok_of_all
    intro kv1 h1
    have h1a := hall kv1 h1
    rw [List.all_eq_true] at h1a
    apply mapPairsExcept_ok_of_all
    intro kv2 h2
    have h2a := h1a kv2 h2
    rw [List.all_eq_true] at h2a
    apply mapExcept_ok_of_all
    intro i hi
    exact imageSerialize_ok _ _ i (h2a i (mem_sortImages i kv2.2 hi))
  have hser : images_serialize x force = .ok { header := { htype := "productmd.images", hversion := version_to_string (get_output_version force x.outputVersionStamp) }, compose := cd, images := imgs } := by
    simp only [images_serialize]
    rw [hcs2, okBind, hp, okBind]
    rfl
  exact ⟨_, hser, rfl⟩

theorem extraFileSerializeV2_ok (e : ExtraFileEntry) (he : extraFileEntryValid e = true) :
    ∃ d, extraFileSerializeV2 e = .ok d := by
  unfold extraFileEntryValid at he
  obtain ⟨d, hd⟩ := locValidate_serialize_ok (extraFileEffectiveLocation e) (isOkB_unit _ he)
  refine ⟨{ file := osPathBasename e.file, location := d }, ?_⟩
  unfold extraFileSerializeV2
  rw [hd, okBind]
  rfl

theorem extra_files_serialize_ok (x : ExtraFiles) (force : Option Version)
    (hx : extraFilesValid x = true) :
    ∃ f, extra_files_serialize x force = .ok f ∧
      f.header = { htype := "productmd.extra_files", hversion := version_to_string (get_output_version force x.outputVersionStamp) } := by
  unfold extraFilesValid at hx
  rw [Bool.and_eq_true] at hx
  obtain ⟨cd, hcs2⟩ : ∃ cd, composeSerialize x.compose = .ok cd :=
    ⟨_, composeValidate_serialize_ok x.compose (isOkB_unit _ hx.1)⟩
  have hall := hx.2
  rw [List.all_eq_true] at hall
  by_cases hv2 : verLe VERSION_2_0 (get_output_version force x.outputVersionStamp) = true
  · obtain ⟨p, hp⟩ : ∃ p, mapPairsExcept (fun archmap => mapPairsExcept
        (fun entries => mapExcept extraFileSerializeV2 entries) archmap) x.extra_files = .ok p := by
      apply mapPairsExcept_ok_of_all
      intro kv1 h1
      have h1a := hall kv1 h1
      rw [List.all_eq_true] at h1a
      apply mapPairsExcept_ok_of_all
      intro kv2 h2
      have h2a := h1a kv2 h2
      rw [List.all_eq_true] at h2a
      apply mapExcept_ok_of_all
      intro e he
      exact extraFileSerializeV2_ok e (h2a e he)
    have hser : extra_files_serialize x force = .ok { header := { htype := "productmd.extra_files", hversion := version_to_string (get_output_version force x.outputVersionStamp) }, compose := cd, extra_files := .v2 p } := by
      simp only [extra_files_serialize]
      rw [hcs2, okBind, if_pos hv2, hp, okBind]
      rfl
    exact ⟨_, hser, rfl⟩
  · have hser : extra_files_serialize x force = .ok { header := { htype := "productmd.extra_files", hversion := version_to_string (get_output_version force x.outputVersionStamp) }, compose := cd, extra_files := .v1 (mapPairs (mapPairs (fun entries => entries.map extraFileSerializeV1)) x.extra_files) } := by
      simp only [extra_files_serialize]
      rw [hcs2, okBind, if_neg hv2]
      rfl
    exact ⟨_, hser, rfl⟩

theorem moduleSerializeV2_ok (arch : String) (e : ModuleEntry) (he : moduleEntryValid e = true) :
    ∃ d, moduleSerializeV2 arch e = .ok d := by
  unfold moduleEntryValid at he
  obtain ⟨d, hd⟩ := locValidate_serialize_ok (moduleEffectiveLocation e) (isOkB_unit _ he)
  refine ⟨{ name := dictGetD e.metadata "name" "", stream := dictGetD e.metadata "stream" "", version := dictGetD e.metadata "version" "", context := dictGetD e.metadata "context" "", arch := arch, location := d, rpms := e.rpms }, ?_⟩
  unfold moduleSerializeV2
  rw [hd, okBind]
  rfl

theorem modules_serialize_ok (x : Modules) (force : Option Version)
    (hx : modulesValid x = true) :
    ∃ f, modules_serialize x force = .ok f ∧
      f.header = { htype := "productmd.modules", hversion := version_to_string (get_output_version force x.outputVersionStamp) } := by
  unfold modulesValid at hx
  rw [Bool.and_eq_true] at hx
  obtain ⟨cd, hcs2⟩ : ∃ cd, composeSerialize x.compose = .ok cd :=
    ⟨_, composeValidate_serialize_ok x.compose (isOkB_unit _ hx.1)⟩
  have hall := hx.2
  rw [List.all_eq_true] at hall
  by_cases hv2 : verLe VERSION_2_0 (get_output_version force x.outputVersionStamp) = true
  · obtain ⟨p, hp⟩ : ∃ p, mapPairsExcept (fun archmap => mapPairsExceptKey
        (fun arch uidmap => mapPairsExcept (fun e => moduleSerializeV2 arch e) uidmap)
        archmap) x.modules = .ok p := by
      apply mapPairsExcept_ok_of_all
      intro kv1 h1
      have h1a := hall kv1 h1
      rw [List.all_eq_true] at h1a
      apply mapPairsExceptKey_ok_of_all
      intro kv2 h2
      have h2a := h1a kv2 h2
      rw [List.all_eq_true] at h2a
      apply mapPairsExcept_ok_of_all
      intro kv3 h3
      exact moduleSerializeV2_ok kv2.1 kv3.2 (h2a kv3 h3)
    have hser : modules_serialize x force = .ok { header := { htype := "productmd.modules", hversion := version_to_string (get_output_version force x.outputVersionStamp) }, compose := cd, modules := .v2 p } := by
      simp only [modules_serialize]
      rw [hcs2, okBind, if_pos hv2, hp, okBind]
      rfl
    exact ⟨_, hser, rfl⟩
  · have hser : modules_serialize x force = .ok { header := { htype := "productmd.modules", hversion := version_to_string (get_output_version force x.outputVersionStamp) }, compose := cd, modules := .v1 (mapPairs (mapPairs (mapPairs moduleSerializeV1)) x.modules) } := by
      simp only [modules_serialize]
      rw [hcs2, okBind, if_neg hv2]
      rfl
    exact ⟨_, hser, rfl⟩
/-! ## Concrete demonstration values used by the claim witnesses -/

/-- A compose section that passes `Compose.validate`. -/
def demoCompose : ComposeData :=
  { id := some "Foo-1.0-20170217.n.0", ctype := some "nightly", date := some "20170217",
    respin := some 0, label := none, final := false }

example : composeValidate demoCompose = .ok () := rfl

/-- An `Rpms` entity with a valid compose and no entries. -/
def demoRpms : Rpms :=
  { compose := demoCompose, rpms := [], outputVersionStamp := none }

/-- An `Images` entity with a valid compose and no images. -/
def demoImages : Images :=
  { compose := demoCompose, images := [], outputVersionStamp := none }

/-- An `ExtraFiles` entity with a valid compose and no entries. -/
def demoExtraFiles : ExtraFiles :=
  { compose := demoCompose, extra_files := [], outputVersionStamp := none }

/-- A `Modules` entity with a valid compose and no entries. -/
def demoModules : Modules :=
  { compose := demoCompose, modules := [], outputVersionStamp := none }

/-- A two-node store: the root variant `A` with child `B`; `B`'s uid is
`A-B`, so the store satisfies the uid invariant. -/
def demoNodeA : VarNode :=
  { vid := "A", uid := "A", vname := "A", vtype := "variant", arches := ["x86_64"],
    parent := none, children := [("B", 1)], isVariant := true }

def demoNodeB : VarNode :=
  { vid := "B", uid := "A-B", vname := "B", vtype := "variant", arches := ["x86_64"],
    parent := some 0, children := [], isVariant := true }

def demoStore : VarStore := [demoNodeA, demoNodeB]

/-- A store holding the top-level `Variants` container and a root-level
variant not yet added to it. -/
def demoContainer : VarNode :=
  { vid := "", uid := "", vname := "", vtype := "", arches := [],
    parent := none, children := [], isVariant := false }

def demoNodeRoot : VarNode :=
  { vid := "B", uid := "B", vname := "B", vtype := "variant", arches := ["x86_64"],
    parent := none, children := [], isVariant := true }

def demoStore2 : VarStore := [demoContainer, demoNodeRoot]

/-- The store after the successful `add` of `demoNodeRoot` into the
container (computed by running `variantAdd`). -/
def demoStore2After : VarStore := (variantAdd demoStore2 0 1).1

/-- The store after the failing `add` of node 0 into node 1 of
`demoStore` (computed by running `variantAdd`). -/
def demoStoreAfter : VarStore := (variantAdd demoStore 1 0).1

/-- The deserialized trees of the demo dump (computed by running
`variantsDeserialize`). -/
def demoRoots : List (String × VTree) :=
  match variantsDeserialize [("Server", demoDumpServer), ("Server-optional", demoDumpOptional)] with
  | .ok r => r
  | .error _ => []

/-- The OCI reference of the claims: `oci://quay.io/ns/repo:tag@sha256:`
followed by 64 `a` characters. -/
def ociDemoUrl : String :=
  "oci://quay.io/ns/repo:tag@sha256:aaaaaaaaaaaaaaaaaaaaaaaaaaaaaaaaaaaaaaaaaaaaaaaaaaaaaaaaaaaaaaaa"

def demoOciLoc : Location :=
  { url := some ociDemoUrl, size := none, checksum := none,
    local_path := some "ns/repo", contents := [] }

/-- A demonstration file entry (valid against `FileEntry.validate`). -/
def demoFileEntry : FileEntry :=
  { file := some "etc/os-release", size := some 42,
    checksum := some "sha256:aaaaaaaaaaaaaaaaaaaaaaaaaaaaaaaaaaaaaaaaaaaaaaaaaaaaaaaaaaaaaaaa",
    layer_digest := some "sha256:aaaaaaaaaaaaaaaaaaaaaaaaaaaaaaaaaaaaaaaaaaaaaaaaaaaaaaaaaaaaaaaa" }

/-- Two locations equal on the four compared fields, one with contents
and one without. -/
def demoLocNoContents : Location :=
  { url := some ociDemoUrl, size := some 7, checksum := none,
    local_path := some "ns/repo", contents := [] }

def demoLocWithContents : Location :=
  { url := some ociDemoUrl, size := some 7, checksum := none,
    local_path := some "ns/repo", contents := [demoFileEntry] }

/-- A non-OCI location with non-empty contents. -/
def demoNonOciLoc : Location :=
  { url := some "https://example.com/x.iso", size := none, checksum := none,
    local_path := some "x.iso", contents := [demoFileEntry] }
/-! ## The claims -/

/-- C1: for every supported format version v (1.0, 1.1, 1.2, 2.0) and
every valid `Rpms` manifest, deserializing the result of serializing at
target version v yields an entity equal to the original on all fields
representable at v (the compose observation, and the per-entry
observation appropriate to the version family). -/
theorem claim_C1 (v : Version) (x : Rpms)
    (hv : v = VERSION_1_0 ∨ v = VERSION_1_1 ∨ v = VERSION_1_2 ∨ v = VERSION_2_0)
    (hx : rpmsValid x = true) :
    ∃ f y, rpms_serialize x (some v) = .ok f ∧ rpms_deserialize f = .ok y ∧
      rpmsObs v y = rpmsObs v x := by
  rcases hv with h | h | h | h <;> subst h <;>
    exact rpms_roundtrip_core _ x hx (by rfl) (by rfl)

/-- Witness for C1 at version 2.0 and the demo `Rpms` entity. -/
theorem claim_C1_witness :
    ∃ f y, rpms_serialize demoRpms (some VERSION_2_0) = .ok f ∧ rpms_deserialize f = .ok y ∧
      rpmsObs VERSION_2_0 y = rpmsObs VERSION_2_0 demoRpms :=
  claim_C1 VERSION_2_0 demoRpms (Or.inr (Or.inr (Or.inr rfl))) (by rfl)
/-- C2: for every versioned manifest entity (Rpms, Images, ExtraFiles,
Modules), serialize resolves its target version as the explicit
force_version when given, otherwise the entity's stamped output_version,
otherwise the fixed library default v2.0; it writes the resolved version
into the emitted header, and serialization completes successfully for
any valid entity.  The last four conjuncts record `Image.serialize`'s
own resolution (parent's `get_output_version`, else `force_version`,
else `OUTPUT_FORMAT_VERSION`). -/
theorem claim_C2 (force : Option Version) (xr : Rpms) (xi : Images)
    (xe : ExtraFiles) (xm : Modules)
    (hr : rpmsValid xr = true) (hi : imagesValid xi = true)
    (he : extraFilesValid xe = true) (hm : modulesValid xm = true) :
    (∃ f, rpms_serialize xr force = .ok f ∧ f.header = { htype := "productmd.rpms", hversion := version_to_string (get_output_version force xr.outputVersionStamp) }) ∧
    (∃ f, images_serialize xi force = .ok f ∧ f.header = { htype := "productmd.images", hversion := version_to_string (get_output_version force xi.outputVersionStamp) }) ∧
    (∃ f, extra_files_serialize xe force = .ok f ∧ f.header = { htype := "productmd.extra_files", hversion := version_to_string (get_output_version force xe.outputVersionStamp) }) ∧
    (∃ f, modules_serialize xm force = .ok f ∧ f.header = { htype := "productmd.modules", hversion := version_to_string (get_output_version force xm.outputVersionStamp) }) ∧
    (∀ (v : Version) (stamped : Option Version), get_output_version (some v) stamped = v) ∧
    (∀ v : Version, get_output_version none (some v) = v) ∧
    get_output_version none none = VERSION_2_0 ∧
    (∀ (ps : Option Version) (f2 : Option Version), imageResolveVersion (some ps) f2 = get_output_version f2 ps) ∧
    (∀ v : Version, imageResolveVersion none (some v) = v) ∧
    imageResolveVersion none none = OUTPUT_FORMAT_VERSION ∧
    OUTPUT_FORMAT_VERSION = VERSION_2_0 :=
  ⟨rpms_serialize_ok xr force hr, images_serialize_ok xi force hi,
   extra_files_serialize_ok xe force he, modules_serialize_ok xm force hm,
   fun _ _ => rfl, fun _ => rfl, rfl, fun _ _ => rfl, fun _ => rfl, rfl, rfl⟩

/-- Witness for C2 on the four demo entities with no forced version. -/
theorem claim_C2_witness :
    (∃ f, rpms_serialize demoRpms none = .ok f ∧ f.header = { htype := "productmd.rpms", hversion := version_to_string (get_output_version none demoRpms.outputVersionStamp) }) ∧
    (∃ f, images_serialize demoImages none = .ok f ∧ f.header = { htype := "productmd.images", hversion := version_to_string (get_output_version none demoImages.outputVersionStamp) }) ∧
    (∃ f, extra_files_serialize demoExtraFiles none = .ok f ∧ f.header = { htype := "productmd.extra_files", hversion := version_to_string (get_output_version none demoExtraFiles.outputVersionStamp) }) ∧
    (∃ f, modules_serialize demoModules none = .ok f ∧ f.header = { htype := "productmd.modules", hversion := version_to_string (get_output_version none demoModules.outputVersionStamp) }) ∧
    (∀ (v : Version) (stamped : Option Version), get_output_version (some v) stamped = v) ∧
    (∀ v : Version, get_output_version none (some v) = v) ∧
    get_output_version none none = VERSION_2_0 ∧
    (∀ (ps : Option Version) (f2 : Option Version), imageResolveVersion (some ps) f2 = get_output_version f2 ps) ∧
    (∀ v : Version, imageResolveVersion none (some v) = v) ∧
    imageResolveVersion none none = OUTPUT_FORMAT_VERSION ∧
    OUTPUT_FORMAT_VERSION = VERSION_2_0 :=
  claim_C2 none demoRpms demoImages demoExtraFiles demoModules (by rfl) (by rfl) (by rfl) (by rfl)
/-- C3 (counterexample): the triple `("foo-bar", "1", "ga")` passes all
three validators, `create_release_id` encodes it as `"foo-bar-1"`, but
`parse_release_id` returns `("foo", "bar", "1")`, not the original
triple — the round-trip fails on valid input with a dash in the short
name and the implicit "ga" type. -/
theorem claim_C3_counterexample :
    is_valid_release_short "foo-bar" = true ∧
    is_valid_release_version "1" = true ∧
    is_valid_release_type "ga" = true ∧
    create_release_id "foo-bar" "1" "ga" none none none = .ok "foo-bar-1" ∧
    parse_release_id "foo-bar-1" = .ok { short := "foo", version := "bar", rtype := "1" } ∧
    ({ short := "foo", version := "bar", rtype := "1" } : ParsedReleaseId) ≠
      { short := "foo-bar", version := "1", rtype := "ga" } :=
  ⟨rfl, rfl, rfl, rfl, rfl, by decide⟩

/-- C3 (amended): the round-trip
`parse_release_id (create_release_id short version type) = (short, version, type)`
holds — in the plain and the layered/base-product form — for valid
triples that additionally satisfy `partRoundtripHyp`: the version is
dash- and at-free, the short name is dash-free when the type is the
implicit "ga", and a non-"ga" type is either a known release type or a
dash-free token no known release type being a suffix of the
identifier. -/
theorem claim_C3 (s v t bs bv bt : String)
    (h1 : partRoundtripHyp s v t) (h2 : partRoundtripHyp bs bv bt) :
    (∃ rid : String, create_release_id s v t none none none = .ok rid ∧
      parse_release_id rid = .ok { short := s, version := v, rtype := t }) ∧
    (∃ rid : String, create_release_id s v t (some bs) (some bv) (some bt) = .ok rid ∧
      parse_release_id rid = .ok { short := s, version := v, rtype := t, bpShort := some bs, bpVersion := some bv, bpType := some bt }) :=
  ⟨release_id_roundtrip_plain s v t h1,
   release_id_roundtrip_layered s v t bs bv bt h1 h2⟩

/-- Witness for C3 on `("f", "23", "updates")` with base product
`("base", "4", "ga")`. -/
theorem claim_C3_witness :
    (∃ rid : String, create_release_id "f" "23" "updates" none none none = .ok rid ∧
      parse_release_id rid = .ok { short := "f", version := "23", rtype := "updates" }) ∧
    (∃ rid : String, create_release_id "f" "23" "updates" (some "base") (some "4") (some "ga") = .ok rid ∧
      parse_release_id rid = .ok { short := "f", version := "23", rtype := "updates", bpShort := some "base", bpVersion := some "4", bpType := some "ga" }) :=
  claim_C3 "f" "23" "updates" "base" "4" "ga" (by decide) (by decide)
/-- C4: refuted as a statement about the code — the spec (and the test
suite) demand a ValueError for an unrecognized date-type suffix, but
`get_date_type_respin` silently defaults: the pattern's type group
simply fails to capture an unknown suffix, the type defaults to
"production" and the respin to 0, and the function's unknown-type
`raise` is unreachable.  All three inputs the test suite expects to
raise return `("20170217", "production", 0)` instead. -/
theorem claim_C4 :
    get_date_type_respin "Foo-1.0-20170217.foo.2" = .ok (some ("20170217", "production", 0)) ∧
    get_date_type_respin "Foo-1.0-20170217.c.2" = .ok (some ("20170217", "production", 0)) ∧
    get_date_type_respin "Foo-1.0-20170217.production.2" = .ok (some ("20170217", "production", 0)) ∧
    (.ok (some ("20170217", "production", 0)) : Except PErr (Option (String × String × Int))) ≠
      .error PErr.valueError :=
  ⟨rfl, rfl, rfl, by simp⟩

/-- C5: refuted as a statement about the code — `COMPOSE_TYPES` is
exactly `["test", "ci", "nightly", "production"]`, so a compose of type
"development" (which the spec, and the test suite's
`...20160622.d.0` cases, require to be accepted with suffix ".d") fails
validation, and `Compose.type_suffix` raises instead of returning
".d"; the other four types map to their documented suffixes. -/
theorem claim_C5 :
    COMPOSE_TYPES = ["test", "ci", "nightly", "production"] ∧
    COMPOSE_TYPES.contains "development" = false ∧
    composeValidate { demoCompose with ctype := some "development" } = .error PErr.valueError ∧
    composeTypeSuffix "development" = .error PErr.valueError ∧
    composeTypeSuffix "production" = .ok "" ∧
    composeTypeSuffix "nightly" = .ok ".n" ∧
    composeTypeSuffix "test" = .ok ".t" ∧
    composeTypeSuffix "ci" = .ok ".ci" :=
  ⟨rfl, rfl, rfl, rfl, rfl, rfl, rfl, rfl⟩
/-- C6 (counterexample): on the demo store, adding the ancestor `A`
(index 0) as a child of `B` (index 1) does fail — but with the
`_validate_uid` mismatch raised by `variant.validate()` on the
reassigned candidate, not with the cycle error: the cycle check is
unreachable for any ancestor under the uid invariant. -/
theorem claim_C6_counterexample :
    getAllParents demoStore 1 (demoStore.length + 1) = some [1, 0] ∧
    (variantAdd demoStore 1 0).2 = some AddErr.uidMismatch ∧
    AddErr.uidMismatch ≠ AddErr.cycleDetected :=
  ⟨rfl, rfl, by decide⟩

/-- C6 (amended): for a variant `X` and a proposed child `Y` already in
`X`'s ancestor chain (in a store satisfying the uid invariant along
that chain), `add` raises — the call returns an error and never inserts
`Y`: every node's children mapping is as before the call (only the
candidate's `parent` field has been touched).  The error is the
validation failure hit before the cycle check (the spec's "reporting
the cycle" does not hold; see the counterexample). -/
theorem claim_C6 (σ : VarStore) (x y : Nat) (parents : List Nat)
    (hxv : (getNode σ x).isVariant = true) (hylt : y < σ.length)
    (hchain : getAllParents σ x (σ.length + 1) = some parents)
    (halign : ∀ j ∈ parents, nodeUidOk σ (getNode σ j))
    (hy : y ∈ parents) :
    ∃ e : AddErr, variantAdd σ x y = (addParentStep σ x y, some e) ∧
      ∀ j, (getNode (addParentStep σ x y) j).children = (getNode σ j).children := by
  obtain ⟨e, hval⟩ := cycle_add_validation_fails σ x y parents hxv hylt hchain halign hy
  exact ⟨e, variantAdd_validate_error σ x y e hval,
    fun j => (addParentStep_getNode σ x y j).2.2.2.1⟩

/-- Witness for C6 on the demo store (adding ancestor 0 under node 1). -/
theorem claim_C6_witness :
    ∃ e : AddErr, variantAdd demoStore 1 0 = (addParentStep demoStore 1 0, some e) ∧
      ∀ j, (getNode (addParentStep demoStore 1 0) j).children = (getNode demoStore j).children :=
  claim_C6 demoStore 1 0 [1, 0] rfl (by decide) rfl
    (by
      intro j hj
      rcases List.mem_cons.mp hj with h1 | h2
      · subst h1
        exact rfl
      · rcases List.mem_cons.mp h2 with h3 | h4
        · subst h3
          exact rfl
        · cases h4)
    (by decide)
/-- C7: the uid composition invariant — every variant with a parent has
`uid = parent.uid + "-" + id`, every root variant has
`uid.replace("-", "") = id` — holds after every successful `add` into a
store already satisfying it, and holds on every tree produced by
`Variants.deserialize` (hence after any serialize/deserialize
round-trip). -/
theorem claim_C7 (σ : VarStore) (s v : Nat) (σ' : VarStore)
    (hok : variantAdd σ s v = (σ', none)) (hinv : storeUidOk σ)
    (full : List (String × VDump)) (roots : List (String × VTree))
    (hdes : variantsDeserialize full = .ok roots) :
    storeUidOk σ' ∧ ∀ kv ∈ roots, TreeUidOk none kv.2 :=
  ⟨variantAdd_preserves_uidOk σ s v σ' hok hinv,
   variantsDeserialize_uidOk full roots hdes⟩

/-- Witness for C7: a successful add of a root variant into the
container, and the demo two-variant dump. -/
theorem claim_C7_witness :
    storeUidOk demoStore2After ∧ ∀ kv ∈ demoRoots, TreeUidOk none kv.2 :=
  claim_C7 demoStore2 0 1 demoStore2After rfl
    (by
      intro i hi hv
      have h2 : i < 2 := hi
      interval_cases i
      · exact absurd hv (by decide)
      · exact rfl)
    [("Server", demoDumpServer), ("Server-optional", demoDumpOptional)] demoRoots rfl

/-- C8: the OCI location `oci://quay.io/ns/repo:tag@sha256:<64 a's>`
exposes `is_oci = true`, registry `quay.io`, repository `ns/repo` and
tag `tag`; and every location whose url is not an OCI reference fails
validation whenever its contents list is non-empty. -/
theorem claim_C8 :
    (is_oci demoOciLoc = true ∧ oci_registry demoOciLoc = some "quay.io" ∧
      oci_repository demoOciLoc = some "ns/repo" ∧ oci_tag demoOciLoc = some "tag") ∧
    ∀ loc : Location, is_oci loc = false → loc.contents ≠ [] → locValidate loc ≠ .ok () := by
  refine ⟨⟨rfl, rfl, rfl, rfl⟩, ?_⟩
  intro loc hoci hne h
  have h2 := (locValidate_parts loc h).2.1
  unfold locValidateContents at h2
  obtain ⟨hif, _⟩ := bindUnitOk _ _ _ h2
  have hie : loc.contents.isEmpty = false := by
    cases hc : loc.contents.isEmpty
    · rfl
    · exact absurd (List.isEmpty_iff.mp hc) hne
  rw [hoci, hie] at hif
  exact absurd hif (by simp)

/-- Witness for C8's universally quantified part on a non-OCI location
with one contents entry. -/
theorem claim_C8_witness :
    is_oci demoNonOciLoc = false ∧ demoNonOciLoc.contents ≠ [] ∧
      locValidate demoNonOciLoc ≠ .ok () :=
  ⟨rfl, by decide, claim_C8.2 demoNonOciLoc rfl (by decide)⟩

/-- C9: `Location.__eq__` and `Location.__hash__` ignore `contents`:
two locations equal on url, size, checksum and local_path compare equal
and hash alike regardless of their contents lists. -/
theorem claim_C9 (a b : Location) (hu : a.url = b.url) (hs : a.size = b.size)
    (hc : a.checksum = b.checksum) (hl : a.local_path = b.local_path) :
    locEq a b = true ∧ locHashKey a = locHashKey b := by
  constructor
  · simp [locEq, hu, hs, hc, hl]
  · simp [locHashKey, hu, hs, hc, hl]

/-- Witness for C9 on two locations, one with empty and one with
non-empty contents. -/
theorem claim_C9_witness :
    demoLocNoContents.contents ≠ demoLocWithContents.contents ∧
      locEq demoLocNoContents demoLocWithContents = true ∧
      locHashKey demoLocNoContents = locHashKey demoLocWithContents :=
  ⟨by decide, (claim_C9 demoLocNoContents demoLocWithContents rfl rfl rfl rfl).1,
    (claim_C9 demoLocNoContents demoLocWithContents rfl rfl rfl rfl).2⟩

/-- C10: whenever `VariantBase.add` raises, the container's variants
mapping is unchanged (every node's children are as before), but when
the container is itself a `Variant` the candidate's `parent` attribute
has already been reassigned to the container before the error; when the
container is the plain `Variants` collection the store is entirely
unchanged. -/
theorem claim_C10 (σ : VarStore) (s v : Nat) (σ' : VarStore) (e : AddErr)
    (herr : variantAdd σ s v = (σ', some e)) :
    (∀ j, (getNode σ' j).children = (getNode σ j).children) ∧
    ((getNode σ s).isVariant = true → v < σ.length → (getNode σ' v).parent = some s) ∧
    ((getNode σ s).isVariant = false → σ' = σ) := by
  have hst : σ' = addParentStep σ s v := variantAdd_error_store σ s v σ' e herr
  subst hst
  refine ⟨fun j => (addParentStep_getNode σ s v j).2.2.2.1, ?_, ?_⟩
  · intro hs hv
    exact addParentStep_parent_v σ s v hv hs
  · intro hs
    unfold addParentStep
    rw [hs]
    rfl

/-- Witness for C10 on the failing demo add (node 1 is a `Variant`, so
the candidate's parent is reassigned while no children change). -/
theorem claim_C10_witness :
    (∀ j, (getNode demoStoreAfter j).children = (getNode demoStore j).children) ∧
    ((getNode demoStore 1).isVariant = true → 0 < demoStore.length →
      (getNode demoStoreAfter 0).parent = some 1) ∧
    ((getNode demoStore 1).isVariant = false → demoStoreAfter = demoStore) :=
  claim_C10 demoStore 1 0 demoStoreAfter AddErr.uidMismatch rfl
